import Mathlib

/-!
Verification development for the scripted freight-brokerage demo dashboard
(approval-gated variant).  The data model follows the zod schema of the
shared schema module; the simulation logic follows the gated dashboard
component (createAPSteps, createARSteps, runAPForShipment, runARForShipment,
handleApproveAction, startSimulation, pauseSimulation, resetSimulation,
resumeSimulation).  Browser timers are modelled by an explicit queue of
pending timers fired in deadline order (ties in creation order), with a
`tracked` flag distinguishing timers pushed onto `timeoutRefs` (cleared by
clearTimeouts) from the one AP-to-AR handoff timer that is not pushed.
-/

set_option maxHeartbeats 4000000

namespace SentieDemo

/-- AP statuses, from the apStatusSchema enum. -/
inductive APStatus
  | received | in_review | audit_pass | in_dispute | paid | input_required
  deriving DecidableEq, Repr

/-- AR statuses, from the arStatusSchema enum. -/
inductive ARStatus
  | preparing | for_review | submitted | in_dispute | collected | input_required
  deriving DecidableEq, Repr

/-- Activity/step event kinds.  The schema enum lists ten values; the gated
dashboard additionally authors one step with the literal type
issue_resolved (cast into the SimStep array), so it is included here. -/
inductive ActivityType
  | email_received | email_sent | email_draft | document_scanned
  | issue_found | issue_resolved | approval_requested | invoice_created
  | audit_complete | payment_sent | payment_received
  deriving DecidableEq, Repr

/-- Activity category: which ledger the event belongs to. -/
inductive Category
  | ap | ar
  deriving DecidableEq, Repr

/-- Pending-action markers used by the gated dashboard SimStep type. -/
inductive PendingActionType
  | approve_email | verify_docs
  deriving DecidableEq, Repr

/-- A document reference attached to a step or activity. -/
structure DocRef where
  name : String
  url : String
  deriving DecidableEq, Repr

/-- Draft email payload carried by approval-gated steps.  The source names
the recipient field `to`, which is a reserved token in Lean. -/
structure DraftContent where
  toAddr : String
  subject : String
  body : String
  attachments : Option (List String) := none
  deriving DecidableEq, Repr

/-- Status carried by a SimStep: an AP status for AP scripts, an AR status
for AR scripts (the source types this as APStatus | ARStatus). -/
inductive StepStatus
  | ap (s : APStatus)
  | ar (s : ARStatus)
  deriving DecidableEq, Repr

/-- An authored simulation step, from the gated dashboard SimStep interface. -/
structure SimStep where
  delay : Nat
  type : ActivityType
  title : String
  description : String
  status : StepStatus
  document : Option DocRef := none
  requiresApproval : Bool := false
  pendingActionType : Option PendingActionType := none
  draftContent : Option DraftContent := none
  deriving DecidableEq, Repr

/-- Activity metadata: optional document reference and pending-action flag. -/
structure ActivityMeta where
  document : Option DocRef := none
  pendingAction : Option Bool := none
  deriving DecidableEq, Repr

/-- An activity-log entry, from the activitySchema. -/
structure Activity where
  id : String
  shipmentId : String
  type : ActivityType
  category : Category
  title : String
  description : String
  timestamp : Nat
  metadata : Option ActivityMeta := none
  deriving DecidableEq, Repr

/-- A shipment record, from the shipmentSchema. -/
structure Shipment where
  id : String
  shipmentNumber : String
  origin : String
  destination : String
  carrier : String
  shipper : String
  laneRate : Nat
  invoiceAmount : Nat
  detentionCharge : Option Nat := none
  apStatus : APStatus
  arStatus : ARStatus
  createdAt : Nat
  pendingAction : Option PendingActionType := none
  deriving DecidableEq, Repr

/-- Simulation phases. -/
inductive Phase
  | idle | ap | ar | complete
  deriving DecidableEq, Repr

/-- Simulation state, from the simulationStateSchema. -/
structure SimulationState where
  isRunning : Bool
  currentPhase : Phase
  currentStep : Nat
  shipmentId : Option String := none
  deriving DecidableEq, Repr

/-! ### String helpers used by the authored scripts -/

/-- Comma-grouping of a digit list given least-significant first, as
produced by Number.prototype.toLocaleString for integers. -/
def groupRev : List Char → List Char
  | a :: b :: c :: d :: rest => a :: b :: c :: ',' :: groupRev (d :: rest)
  | l => l

/-- Render a natural number with thousands separators (toLocaleString). -/
def toLocale (n : Nat) : String :=
  String.mk ((groupRev (toString n).data.reverse).reverse)

/-- Substring test on character lists: some drop of `l` has `pat` as prefix. -/
def charsContain (l pat : List Char) : Bool :=
  (List.range (l.length + 1)).any fun i => pat.isPrefixOf (l.drop i)

/-- String.prototype.includes. -/
def strContains (s pat : String) : Bool :=
  charsContain s.data pat.data

/-- JavaScript truthiness of an optional number (undefined and 0 are falsy). -/
def numTruthy : Option Nat → Bool
  | none => false
  | some n => n != 0

/-- Render an optional number the way template interpolation renders the raw
field value (only ever used under a truthiness guard in the scripts). -/
def rawNum : Option Nat → String
  | none => "undefined"
  | some n => toString n

/-! ### The seed shipments -/

/-- The fixed seed list of the gated dashboard (INITIAL_SHIPMENTS).  The
source sets createdAt from Date.now() at module load; module-load time is
taken here as 2000 ms so the three offsets (0, -1000, -2000) stay distinct. -/
def INITIAL_SHIPMENTS : List Shipment :=
  [ { id := "SHP-001"
    , shipmentNumber := "WFL-2026-0847"
    , origin := "Los Angeles"
    , destination := "Phoenix"
    , carrier := "DESERT HAULERS TRUCKING INC"
    , shipper := "PACIFIC RIM IMPORTS INC"
    , laneRate := 2850
    , invoiceAmount := 3150
    , detentionCharge := some 300
    , apStatus := APStatus.received
    , arStatus := ARStatus.preparing
    , createdAt := 2000 }
  , { id := "SHP-002"
    , shipmentNumber := "FRT-2024-0848"
    , origin := "Chicago, IL"
    , destination := "Atlanta, GA"
    , carrier := "Prime Freight"
    , shipper := "GlobalMart Inc"
    , laneRate := 1950
    , invoiceAmount := 1950
    , detentionCharge := none
    , apStatus := APStatus.received
    , arStatus := ARStatus.preparing
    , createdAt := 1000 }
  , { id := "SHP-003"
    , shipmentNumber := "FRT-2024-0849"
    , origin := "Seattle, WA"
    , destination := "Phoenix, AZ"
    , carrier := "Northwest Haulers"
    , shipper := "EcoProducts Ltd"
    , laneRate := 2200
    , invoiceAmount := 2200
    , detentionCharge := none
    , apStatus := APStatus.received
    , arStatus := ARStatus.preparing
    , createdAt := 0 } ]

/-! ### Script generation -/

/-- Does some logged activity carry the Bill of Lading document? -/
def hasBOL (currentActivities : List Activity) : Bool :=
  currentActivities.any fun a =>
    ((a.metadata.bind ActivityMeta.document).map DocRef.name) == some "Bill of Lading"

def hasPOD (currentActivities : List Activity) : Bool :=
  currentActivities.any fun a =>
    ((a.metadata.bind ActivityMeta.document).map DocRef.name) == some "Proof of Delivery"

def hasInvoice (currentActivities : List Activity) : Bool :=
  currentActivities.any fun a =>
    ((a.metadata.bind ActivityMeta.document).map DocRef.name) == some "Carrier Invoice"

def hasDocRequest (currentActivities : List Activity) : Bool :=
  currentActivities.any fun a =>
    strContains a.title "Drafting Document Request"

/-- Request steps stay in the array once generated (hasDocRequest),
regardless of whether the documents have arrived since: this keeps array
indices stable, as noted in the source. -/
def needsDocRequest (currentActivities : List Activity) : Bool :=
  (!hasBOL currentActivities || !hasPOD currentActivities ||
    !hasInvoice currentActivities) || hasDocRequest currentActivities

/-- The AP step script of the gated dashboard (createAPSteps).  The script
shape depends on which documents are already present in the activity log and
on whether a document-request draft was already generated, and on the
truthiness of the shipment's detention charge. -/
def createAPSteps (shipment : Shipment) (currentActivities : List Activity) :
    List SimStep :=
  [ { delay := 1000
    , type := ActivityType.email_received
    , title := "Delivery Confirmation - " ++ shipment.shipmentNumber
    , description := "Email from " ++ shipment.carrier ++
        " confirming delivery to " ++ shipment.destination
    , status := StepStatus.ap APStatus.received
    , document := some { name := "Delivery Email"
                       , url := "/demo/emails/email_01_carrier_delivery_complete.pdf" } } ]
  ++ (if needsDocRequest currentActivities then
  [ { delay := 2000
    , type := ActivityType.email_draft
    , title := "Drafting Document Request - " ++ shipment.shipmentNumber
    , description := "Drafted email to " ++ shipment.carrier ++
        " asking for missing documents"
    , status := StepStatus.ap APStatus.received
    , requiresApproval := true
    , draftContent := some
        { toAddr := "dtorres@deserthaulers.com"
        , subject := "Document Request - " ++ shipment.shipmentNumber
        , body := "Hello,\n\nPlease provide the " ++
            String.intercalate ", "
              ((if !hasPOD currentActivities then ["Proof of Delivery"] else []) ++
               (if !hasBOL currentActivities then ["Bill of Lading"] else []) ++
               (if !hasInvoice currentActivities then ["Invoice"] else [])) ++
            " for shipment " ++ shipment.shipmentNumber ++
            " delivered to " ++ shipment.destination ++
            ".\n\nThank you,\nSentie" } }
  , { delay := 1000
    , type := ActivityType.email_sent
    , title := "AI Requests Documents - " ++ shipment.shipmentNumber
    , description := "Sentie sent request to " ++ shipment.carrier ++
        " for missing documents"
    , status := StepStatus.ap APStatus.received }
  , { delay := 5000
    , type := ActivityType.email_received
    , title := "Documents Received - " ++ shipment.shipmentNumber
    , description := shipment.carrier ++ " submitted missing document(s)"
    , status := StepStatus.ap APStatus.in_review
    , document := some { name := "Missing Documents Email"
                       , url := "/demo/emails/email_02_carrier_invoice_submission.pdf" } } ]
  else [])
  ++
  [ { delay := 2000
    , type := ActivityType.document_scanned
    , title := "Scanning BOL - " ++ shipment.shipmentNumber
    , description := "Processing Bill of Lading for " ++ shipment.origin ++
        " to " ++ shipment.destination
    , status := StepStatus.ap APStatus.in_review
    , document := some { name := "Bill of Lading"
                       , url := "/demo/documents/01_bill_of_lading.pdf" } }
  , { delay := 2000
    , type := ActivityType.document_scanned
    , title := "POD Verified - " ++ shipment.shipmentNumber
    , description := "Proof of Delivery validated - signature confirmed at " ++
        shipment.destination
    , status := StepStatus.ap APStatus.in_review
    , document := some { name := "Proof of Delivery"
                       , url := "/demo/documents/02_proof_of_delivery.pdf" } }
  , { delay := 2000
    , type := ActivityType.document_scanned
    , title := "Rate Con Verified - " ++ shipment.shipmentNumber
    , description := "Rate confirmation validated - agreed rate $" ++
        toLocale shipment.laneRate
    , status := StepStatus.ap APStatus.in_review
    , document := some { name := "Rate Confirmation"
                       , url := "/demo/documents/03_rate_confirmation.pdf" } }
  , { delay := 2000
    , type := ActivityType.document_scanned
    , title := "Invoice Analysis - " ++ shipment.shipmentNumber
    , description := "Invoice for $" ++ toLocale shipment.invoiceAmount ++
        " detected" ++
        (if numTruthy shipment.detentionCharge then
          " (includes $" ++ rawNum shipment.detentionCharge ++ " detention)"
         else "")
    , status := StepStatus.ap APStatus.in_review
    , document := some { name := "Carrier Invoice"
                       , url := "/demo/documents/04_carrier_invoice.pdf" } } ]
  ++ (if numTruthy shipment.detentionCharge then
  [ { delay := 2000
    , type := ActivityType.issue_found
    , title := "Detention Issue - " ++ shipment.shipmentNumber
    , description := "Carrier claims $" ++ rawNum shipment.detentionCharge ++
        " detention but no supporting documentation provided"
    , status := StepStatus.ap APStatus.in_dispute }
  , { delay := 2000
    , type := ActivityType.email_draft
    , title := "Drafting Detention Request - " ++ shipment.shipmentNumber
    , description := "Drafted email to " ++ shipment.carrier ++
        " requesting gate logs and ELD report"
    , status := StepStatus.ap APStatus.in_dispute
    , requiresApproval := true
    , draftContent := some
        { toAddr := "dtorres@deserthaulers.com"
        , subject := "Detention Documentation Request - " ++ shipment.shipmentNumber
        , body := "Hello,\n\n regarding shipment " ++ shipment.shipmentNumber ++
            ", we have received a detention charge of $" ++
            rawNum shipment.detentionCharge ++
            ". \n\nPlease provide the following documentation to substantiate this claim:\n" ++
            (if hasBOL currentActivities then "" else "1. Signed Bill of Lading with in/out times\n") ++
            "2. GPS/ELD report showing arrival and departure times\n\nThank you,\nSentie" } }
  , { delay := 1000
    , type := ActivityType.email_sent
    , title := "Requesting Detention Proof - " ++ shipment.shipmentNumber
    , description := "Sentie emailed " ++ shipment.carrier ++
        " requesting gate logs and ELD report"
    , status := StepStatus.ap APStatus.in_dispute
    , document := some { name := "Detention Request Email"
                       , url := "/demo/emails/email_03_sentie_detention_docs_request.pdf" } }
  , { delay := 8000
    , type := ActivityType.email_received
    , title := "Detention Docs Received - " ++ shipment.shipmentNumber
    , description := shipment.carrier ++
        " provided gate log and ELD report for detention claim"
    , status := StepStatus.ap APStatus.in_review }
  , { delay := 500
    , type := ActivityType.document_scanned
    , title := "Gate Log Received"
    , description := "Gate Log showing check-in/out times"
    , status := StepStatus.ap APStatus.in_review
    , document := some { name := "Gate Log.pdf"
                       , url := "/demo/documents/gate_log.pdf" } }
  , { delay := 500
    , type := ActivityType.document_scanned
    , title := "ELD Report Received"
    , description := "Driver ELD logs verifying wait time"
    , status := StepStatus.ap APStatus.in_review
    , document := some { name := "ELD Report.pdf"
                       , url := "/demo/documents/eld_report.pdf" } }
  , { delay := 500
    , type := ActivityType.issue_resolved
    , title := "Detention Verified - Valid Gate Log & ELD"
    , description := "Detention charges verified against carrier documentation"
    , status := StepStatus.ap APStatus.audit_pass }
  , { delay := 2000
    , type := ActivityType.document_scanned
    , title := "Gate Log Verified - " ++ shipment.shipmentNumber
    , description := "Gate log confirms wait time exceeding free time allowance"
    , status := StepStatus.ap APStatus.in_review
    , document := some { name := "Gate Log"
                       , url := "/demo/documents/08_gate_log.pdf" } }
  , { delay := 2000
    , type := ActivityType.document_scanned
    , title := "ELD Report Verified - " ++ shipment.shipmentNumber
    , description :=
        "ELD data confirms truck stationary at facility, supports detention claim"
    , status := StepStatus.ap APStatus.in_review
    , document := some { name := "ELD Report"
                       , url := "/demo/documents/09_eld_report.pdf" } }
  , { delay := 2000
    , type := ActivityType.audit_complete
    , title := "AP Audit Complete - " ++ shipment.shipmentNumber
    , description := "All documents verified. Invoice $" ++
        toLocale shipment.invoiceAmount ++ " approved for payment."
    , status := StepStatus.ap APStatus.audit_pass } ]
  else
  [ { delay := 2000
    , type := ActivityType.audit_complete
    , title := "AP Audit Complete - " ++ shipment.shipmentNumber
    , description := "All documents verified. Invoice $" ++
        toLocale shipment.invoiceAmount ++ " approved for payment."
    , status := StepStatus.ap APStatus.audit_pass } ])

/-- The AR step script of the gated dashboard (createARSteps).  The source
accepts a currentActivities parameter but does not use it. -/
def createARSteps (shipment : Shipment) (_currentActivities : List Activity) :
    List SimStep :=
  [ { delay := 1000
    , type := ActivityType.email_received
    , title := "AR Job Opened - " ++ shipment.shipmentNumber
    , description := "Initiating accounts receivable process for shipment to " ++
        shipment.shipper
    , status := StepStatus.ar ARStatus.preparing }
  , { delay := 2000
    , type := ActivityType.document_scanned
    , title := "Reviewing Agreement - " ++ shipment.shipmentNumber
    , description := "Scanning shipper agreement with " ++ shipment.shipper
    , status := StepStatus.ar ARStatus.preparing
    , document := some { name := "Shipper Agreement"
                       , url := "/demo/emails/email_04_shipper_broker_arrangement.pdf" } }
  , { delay := 2000
    , type := ActivityType.document_scanned
    , title := "Lane Contract Verified - " ++ shipment.shipmentNumber
    , description := "Lane contract confirms rate for " ++ shipment.origin ++
        " to " ++ shipment.destination
    , status := StepStatus.ar ARStatus.preparing
    , document := some { name := "Lane Contract"
                       , url := "/demo/documents/06_lane_contract.pdf" } }
  , { delay := 2000
    , type := ActivityType.invoice_created
    , title := "Invoice Generated - " ++ shipment.shipmentNumber
    , description := "Created broker invoice for " ++ shipment.shipper ++
        (if numTruthy shipment.detentionCharge then
          " including $" ++ rawNum shipment.detentionCharge ++ " detention"
         else "")
    , status := StepStatus.ar ARStatus.preparing
    , document := some { name := "Broker Invoice"
                       , url := "/demo/documents/07_broker_invoice.pdf" } }
  , { delay := 2000
    , type := ActivityType.document_scanned
    , title := "Evidence Packet Ready - " ++ shipment.shipmentNumber
    , description :=
        "Compiled POD, delivery confirmation, and supporting documentation"
    , status := StepStatus.ar ARStatus.for_review }
  , { delay := 2000
    , type := ActivityType.email_draft
    , title := "Drafting Shipper Invoice - " ++ shipment.shipmentNumber
    , description := "Drafted invoice email to " ++ shipment.shipper ++
        " for review"
    , status := StepStatus.ar ARStatus.for_review
    , requiresApproval := true
    , draftContent := some
        { toAddr := "jwu@pacificrimports.com"
        , subject := "Invoice for Shipment " ++ shipment.shipmentNumber
        , body := "Attached is the invoice for shipment " ++
            shipment.shipmentNumber ++ " from " ++ shipment.origin ++
            " to " ++ shipment.destination ++
            ".\n\nLine Items:\n- Base Freight: $" ++ toLocale shipment.laneRate ++
            "\n" ++
            (if numTruthy shipment.detentionCharge then
              "- Detention: $" ++
                toLocale (shipment.detentionCharge.getD 0) ++ "\n"
             else "") ++
            "- Total Amount: $" ++ toLocale shipment.invoiceAmount ++
            "\n\nPlease find the following documents attached:\n- Broker Invoice\n- Proof of Delivery\n- Bill of Lading\n\nKind regards,\nSentie" } }
  , { delay := 1000
    , type := ActivityType.email_sent
    , title := "Invoice Sent - " ++ shipment.shipmentNumber
    , description := "Invoice emailed to " ++ shipment.shipper ++
        " with attached documentation"
    , status := StepStatus.ar ARStatus.submitted
    , document := some { name := "Invoice Email"
                       , url := "/demo/emails/email_05_broker_invoice_to_shipper.pdf" } }
  , { delay := 5000
    , type := ActivityType.payment_received
    , title := "AR Complete - " ++ shipment.shipmentNumber
    , description := "Invoice submitted to " ++ shipment.shipper ++
        ". Payment tracking initiated."
    , status := StepStatus.ar ARStatus.submitted } ]

/-! ### Dashboard state and timers -/

/-- Pending timer payloads.  startAP is the staggered kickoff callback
(runAPForShipment(shipment, 0)); fireAP/fireAR are scheduled step callbacks,
carrying the step value captured by the closure at scheduling time;
handoffAR is the AP-to-AR handoff callback (runARForShipment(shipment, 0));
setPhaseAR and setComplete are the two phase timers of startSimulation. -/
inductive TimerAction
  | startAP (shipment : Shipment) (stepIndex : Nat)
  | fireAP (shipment : Shipment) (stepIndex : Nat) (step : SimStep)
  | fireAR (shipment : Shipment) (stepIndex : Nat) (step : SimStep)
  | handoffAR (shipment : Shipment)
  | setPhaseAR
  | setComplete
  deriving DecidableEq, Repr

/-- A pending browser timer.  `tracked` records whether the timeout id was
pushed onto timeoutRefs (and is therefore cleared by clearTimeouts); the
AP-to-AR handoff timeout is the only one that is not. -/
structure Timer where
  fireAt : Nat
  tracked : Bool
  action : TimerAction
  deriving DecidableEq, Repr

/-- Whole dashboard-session state: clock, React state variables of the gated
dashboard component, and the pending timers. -/
structure DashState where
  now : Nat
  simulation : SimulationState
  activities : List Activity
  shipments : List Shipment
  completedAPShipments : List String
  activeShipmentSteps : List (String × Nat)
  pendingDrafts : List (String × DraftContent)
  timers : List Timer
  deriving DecidableEq, Repr

/-- Lookup in a string-keyed record. -/
def lookupKey {α : Type} (m : List (String × α)) (k : String) : Option α :=
  (m.find? fun p => p.1 == k).map fun p => p.2

/-- Record update `{ ...prev, [k]: v }`. -/
def setKey {α : Type} (m : List (String × α)) (k : String) (v : α) :
    List (String × α) :=
  (k, v) :: m.filter fun p => p.1 != k

/-- Record deletion `delete copy[k]`. -/
def delKey {α : Type} (m : List (String × α)) (k : String) :
    List (String × α) :=
  m.filter fun p => p.1 != k

/-- Map over the shipment list, updating the one with the given id
(the `prev.map(s => s.id === id ? { ...s, ... } : s)` pattern). -/
def updateShipment (shipments : List Shipment) (id : String)
    (f : Shipment → Shipment) : List Shipment :=
  shipments.map fun sh => if sh.id == id then f sh else sh

/-- The completed-AP set update `new Set(Array.from(prev).concat(id))`. -/
def addCompleted (l : List String) (id : String) : List String :=
  if id ∈ l then l else l ++ [id]

/-- The AP status assigned by `apStatus: step.status as APStatus`.  The cast
is unchecked in the source; every step produced by createAPSteps carries an
AP status (see createAPSteps_status_ap), so the fallback arm is never
exercised. -/
def asAPStatus (st : StepStatus) (old : APStatus) : APStatus :=
  match st with
  | StepStatus.ap a => a
  | StepStatus.ar _ => old

/-- The AR status assigned by `arStatus: step.status as ARStatus`. -/
def asARStatus (st : StepStatus) (old : ARStatus) : ARStatus :=
  match st with
  | StepStatus.ar a => a
  | StepStatus.ap _ => old

/-- Activity id template for a fired step (Date.now() is the virtual clock). -/
def stepActivityId (cat : Category) (shipment : Shipment) (now stepIndex : Nat) :
    String :=
  (match cat with | Category.ap => "ap-" | Category.ar => "ar-") ++
    shipment.id ++ "-" ++ toString now ++ "-" ++ toString stepIndex

/-- Metadata of a non-gated step activity:
`step.document ? { document: step.document } : undefined`. -/
def stepMeta (step : SimStep) : Option ActivityMeta :=
  match step.document with
  | some d => some { document := some d }
  | none => none

/-! ### The step player -/

/-- runAPForShipment: recompute the script from the activity log (the source
reads activitiesRef.current, modelled by the `acts` argument, the log as of
the start of the current event tick), stop at the end of the script, record
the active step index for resumption, and schedule the step callback after
the step's delay. -/
def runAPForShipment (acts : List Activity) (s : DashState)
    (shipment : Shipment) (stepIndex : Nat) : DashState :=
  let apSteps := createAPSteps shipment acts
  if h : stepIndex < apSteps.length then
    let step := apSteps.get ⟨stepIndex, h⟩
    { s with
      activeShipmentSteps := setKey s.activeShipmentSteps shipment.id stepIndex
      timers := s.timers ++
        [{ fireAt := s.now + step.delay, tracked := true
         , action := TimerAction.fireAP shipment stepIndex step }] }
  else s

/-- runARForShipment: same shape as runAPForShipment, over the AR script. -/
def runARForShipment (acts : List Activity) (s : DashState)
    (shipment : Shipment) (stepIndex : Nat) : DashState :=
  let arSteps := createARSteps shipment acts
  if h : stepIndex < arSteps.length then
    let step := arSteps.get ⟨stepIndex, h⟩
    { s with
      activeShipmentSteps := setKey s.activeShipmentSteps shipment.id stepIndex
      timers := s.timers ++
        [{ fireAt := s.now + step.delay, tracked := true
         , action := TimerAction.fireAR shipment stepIndex step }] }
  else s

/-- The body of an AP step timeout callback.  For a step that requires
approval: record the pending draft, append one pending activity, mark the
shipment input_required with its pending-action marker, and schedule
nothing.  Otherwise: append the activity, update the AP status; on
audit_complete record completion and schedule the untracked AP-to-AR
handoff, else schedule the next step.  The continuation recomputes the
script from `s.activities`, the log as seen by activitiesRef.current inside
the callback (React has not flushed the append yet). -/
def fireAPStep (s : DashState) (shipment : Shipment) (stepIndex : Nat)
    (step : SimStep) : DashState :=
  if step.requiresApproval then
    let s1 :=
      match step.draftContent with
      | some d => { s with pendingDrafts := setKey s.pendingDrafts shipment.id d }
      | none => s
    let pendingActivity : Activity :=
      { id := stepActivityId Category.ap shipment s.now stepIndex
      , shipmentId := shipment.id
      , type := step.type
      , category := Category.ap
      , title := step.title
      , description := step.description
      , timestamp := s.now
      , metadata := some { pendingAction := some true } }
    { s1 with
      activities := pendingActivity :: s1.activities
      shipments := updateShipment s1.shipments shipment.id fun sh =>
        { sh with
          apStatus := APStatus.input_required
          pendingAction := some (step.pendingActionType.getD
            PendingActionType.approve_email) } }
  else
    let newActivity : Activity :=
      { id := stepActivityId Category.ap shipment s.now stepIndex
      , shipmentId := shipment.id
      , type := step.type
      , category := Category.ap
      , title := step.title
      , description := step.description
      , timestamp := s.now
      , metadata := stepMeta step }
    let s1 :=
      { s with
        activities := newActivity :: s.activities
        shipments := updateShipment s.shipments shipment.id fun sh =>
          { sh with apStatus := asAPStatus step.status sh.apStatus } }
    if step.type == ActivityType.audit_complete then
      { s1 with
        completedAPShipments := addCompleted s1.completedAPShipments shipment.id
        timers := s1.timers ++
          [{ fireAt := s1.now + 2000, tracked := false
           , action := TimerAction.handoffAR shipment }] }
    else
      runAPForShipment s.activities s1 shipment (stepIndex + 1)

/-- The body of an AR step timeout callback.  The gate test is
`step.requiresApproval && step.draftContent`. -/
def fireARStep (s : DashState) (shipment : Shipment) (stepIndex : Nat)
    (step : SimStep) : DashState :=
  match step.requiresApproval, step.draftContent with
  | true, some d =>
    let draftActivity : Activity :=
      { id := stepActivityId Category.ar shipment s.now stepIndex
      , shipmentId := shipment.id
      , type := ActivityType.email_draft
      , category := Category.ar
      , title := step.title
      , description := step.description
      , timestamp := s.now
      , metadata := some { pendingAction := some true } }
    { s with
      pendingDrafts := setKey s.pendingDrafts shipment.id d
      activities := draftActivity :: s.activities
      shipments := updateShipment s.shipments shipment.id fun sh =>
        { sh with
          arStatus := ARStatus.input_required
          pendingAction := some PendingActionType.approve_email } }
  | _, _ =>
    let newActivity : Activity :=
      { id := stepActivityId Category.ar shipment s.now stepIndex
      , shipmentId := shipment.id
      , type := step.type
      , category := Category.ar
      , title := step.title
      , description := step.description
      , timestamp := s.now
      , metadata := stepMeta step }
    let s1 :=
      { s with
        activities := newActivity :: s.activities
        shipments := updateShipment s.shipments shipment.id fun sh =>
          { sh with arStatus := asARStatus step.status sh.arStatus } }
    runARForShipment s.activities s1 shipment (stepIndex + 1)

/-! ### The timer queue -/

/-- Extract the pending timer with the least deadline, earliest-created
first on ties, exactly as browser timeouts are dispatched. -/
def extractMin : List Timer → Option (Timer × List Timer)
  | [] => none
  | t :: ts =>
    match extractMin ts with
    | none => some (t, [])
    | some (u, rest) =>
      if t.fireAt ≤ u.fireAt then some (t, ts) else some (u, t :: rest)

/-- Dispatch one timer callback body. -/
def applyTimerAction (s : DashState) : TimerAction → DashState
  | TimerAction.startAP shipment stepIndex =>
      runAPForShipment s.activities s shipment stepIndex
  | TimerAction.fireAP shipment stepIndex step => fireAPStep s shipment stepIndex step
  | TimerAction.fireAR shipment stepIndex step => fireARStep s shipment stepIndex step
  | TimerAction.handoffAR shipment => runARForShipment s.activities s shipment 0
  | TimerAction.setPhaseAR =>
      { s with simulation := { s.simulation with currentPhase := Phase.ar } }
  | TimerAction.setComplete =>
      { s with simulation :=
        { s.simulation with isRunning := false, currentPhase := Phase.complete } }

/-- Fire the next pending timer: advance the clock to its deadline, remove
it from the queue, and run its callback. -/
def advanceOnce (s : DashState) : Option DashState :=
  match extractMin s.timers with
  | none => none
  | some (t, rest) =>
    some (applyTimerAction { s with now := t.fireAt, timers := rest } t.action)

/-- Iterate advanceOnce, stopping when no timer is pending. -/
def advanceN : Nat → DashState → DashState
  | 0, s => s
  | n + 1, s =>
    match advanceOnce s with
    | none => s
    | some s1 => advanceN n s1

/-! ### Control actions -/

/-- clearTimeouts: clears every timeout id held in timeoutRefs; the
untracked handoff timeout survives. -/
def clearTimeouts (s : DashState) : DashState :=
  { s with timers := s.timers.filter fun t => !t.tracked }

/-- startSimulation: clear tracked timers, reset log/shipments/completed
set, mark running in phase ap, schedule the three staggered kickoffs (8 s
apart), the phase-display timer, and the fixed completion timer (120 s). -/
def startSimulation (s : DashState) : DashState :=
  let s1 := clearTimeouts s
  let s2 :=
    { s1 with
      activities := []
      shipments := INITIAL_SHIPMENTS
      completedAPShipments := []
      simulation :=
        { isRunning := true, currentPhase := Phase.ap, currentStep := 0 } }
  { s2 with
    timers := s2.timers ++
      (INITIAL_SHIPMENTS.enum.map fun p =>
        { fireAt := s2.now + p.1 * 8000, tracked := true
        , action := TimerAction.startAP p.2 0 }) ++
      [ { fireAt := s2.now + (45000 + INITIAL_SHIPMENTS.length * 8000)
        , tracked := true, action := TimerAction.setPhaseAR }
      , { fireAt := s2.now + 120000
        , tracked := true, action := TimerAction.setComplete } ] }

/-- pauseSimulation: clear tracked timers and stop the running flag. -/
def pauseSimulation (s : DashState) : DashState :=
  let s1 := clearTimeouts s
  { s1 with simulation := { s1.simulation with isRunning := false } }

/-- resetSimulation: clear tracked timers and restore all state variables
to their seeds. -/
def resetSimulation (s : DashState) : DashState :=
  let s1 := clearTimeouts s
  { s1 with
    activities := []
    shipments := INITIAL_SHIPMENTS
    completedAPShipments := []
    activeShipmentSteps := []
    pendingDrafts := []
    simulation :=
      { isRunning := false, currentPhase := Phase.idle, currentStep := 0 } }

/-- One iteration of the resumeSimulation forEach.  All reads
(activeShipmentSteps, completedAPShipments, currentPhase, the activity log
behind activitiesRef) come from the closure environment `env`, the state at
the start of the resume call; only the accumulator is mutated. -/
def resumeOne (env : DashState) (acc : DashState) (shipment : Shipment) :
    DashState :=
  if shipment.pendingAction == some PendingActionType.approve_email then acc
  else
    match lookupKey env.activeShipmentSteps shipment.id with
    | some currentIndex =>
      if shipment.id ∈ env.completedAPShipments then
        runARForShipment env.activities acc shipment currentIndex
      else
        runAPForShipment env.activities acc shipment currentIndex
    | none =>
      if env.simulation.currentPhase != Phase.complete then
        runAPForShipment env.activities acc shipment 0
      else acc

/-- resumeSimulation: set the running flag, then re-enter the player for
every shipment from its saved index, skipping shipments stuck on approval. -/
def resumeSimulation (s : DashState) : DashState :=
  let s1 := { s with simulation := { s.simulation with isRunning := true } }
  s.shipments.foldl (resumeOne s) s1

/-- handleApproveAction: clear the pending draft and marker, drop the
Review Draft flag from the matching draft activities, and re-enter the
player at the recorded active index plus one, in the AR script when the
shipment's AP audit has completed and in the AP script otherwise.  When the
shipment has no recorded active index the source dereferences
steps[NaN].delay and throws; that path is modelled as `none`.  A missing
shipment returns with no change, as in the source. -/
def handleApproveAction (s : DashState) (shipmentId : String) :
    Option DashState :=
  match s.shipments.find? fun sh => sh.id == shipmentId with
  | none => some s
  | some shipment =>
    let s1 := { s with pendingDrafts := delKey s.pendingDrafts shipmentId }
    let s2 :=
      { s1 with
        shipments := updateShipment s1.shipments shipmentId fun sh =>
          { sh with pendingAction := none } }
    let s3 :=
      { s2 with
        activities := s2.activities.map fun a =>
          if a.shipmentId == shipmentId && a.type == ActivityType.email_draft &&
              (a.metadata.bind ActivityMeta.pendingAction) == some true then
            let flipped : ActivityMeta :=
              { document := a.metadata.bind ActivityMeta.document
              , pendingAction := some false }
            { a with metadata := some flipped }
          else a }
    match lookupKey s.activeShipmentSteps shipmentId with
    | none => none
    | some currentIndex =>
      if shipmentId ∈ s.completedAPShipments then
        some (runARForShipment s.activities s3 shipment (currentIndex + 1))
      else
        some (runAPForShipment s.activities s3 shipment (currentIndex + 1))

/-! ### Events and traces -/

/-- External events of a dashboard session.  Guards mirror how the UI
exposes each control: the pause button only while running, the resume
button only while paused mid-run, the start button only when idle or
complete, the reset button once anything happened, and the approve action
only for a shipment carrying a pending-action marker. -/
inductive Event
  | advance
  | pause
  | resume
  | start
  | reset
  | approve (shipmentId : String)
  deriving DecidableEq, Repr

/-- Apply one event; `none` when the event is unavailable in this state. -/
def stepEv (s : DashState) : Event → Option DashState
  | Event.advance => advanceOnce s
  | Event.pause =>
    if s.simulation.isRunning then some (pauseSimulation s) else none
  | Event.resume =>
    if !s.simulation.isRunning &&
        (s.simulation.currentPhase == Phase.ap ||
         s.simulation.currentPhase == Phase.ar) then
      some (resumeSimulation s)
    else none
  | Event.start =>
    if !s.simulation.isRunning &&
        (s.simulation.currentPhase == Phase.idle ||
         s.simulation.currentPhase == Phase.complete) then
      some (startSimulation s)
    else none
  | Event.reset =>
    if s.simulation.currentPhase != Phase.idle || !s.activities.isEmpty then
      some (resetSimulation s)
    else none
  | Event.approve shipmentId =>
    if s.shipments.any fun sh => sh.id == shipmentId && sh.pendingAction.isSome then
      handleApproveAction s shipmentId
    else none

/-- Run a list of events from a state. -/
def execEvents (s : DashState) : List Event → Option DashState
  | [] => some s
  | e :: evs => (stepEv s e).bind fun s1 => execEvents s1 evs

/-- The mounted component before the auto-start effect fires. -/
def dashInit : DashState :=
  { now := 0
  , simulation := { isRunning := false, currentPhase := Phase.idle, currentStep := 0 }
  , activities := []
  , shipments := INITIAL_SHIPMENTS
  , completedAPShipments := []
  , activeShipmentSteps := []
  , pendingDrafts := []
  , timers := [] }

/-- The state right after the auto-start effect calls startSimulation. -/
def startState : DashState := startSimulation dashInit

/-! ### Derived notions used by the statements -/

/-- The timer (if any) that one runAPForShipment call appends. -/
def scheduledAP (acts : List Activity) (now : Nat) (shipment : Shipment)
    (i : Nat) : List Timer :=
  let steps := createAPSteps shipment acts
  if h : i < steps.length then
    [{ fireAt := now + (steps.get ⟨i, h⟩).delay, tracked := true
     , action := TimerAction.fireAP shipment i (steps.get ⟨i, h⟩) }]
  else []

/-- The timer (if any) that one runARForShipment call appends. -/
def scheduledAR (acts : List Activity) (now : Nat) (shipment : Shipment)
    (i : Nat) : List Timer :=
  let steps := createARSteps shipment acts
  if h : i < steps.length then
    [{ fireAt := now + (steps.get ⟨i, h⟩).delay, tracked := true
     , action := TimerAction.fireAR shipment i (steps.get ⟨i, h⟩) }]
  else []

/-- Is this timer part of the playback chain of the shipment with this id
(kickoff, AP step, AR step, or handoff)? -/
def isChainFor (id : String) (t : Timer) : Bool :=
  match t.action with
  | TimerAction.startAP sh _ => sh.id == id
  | TimerAction.fireAP sh _ _ => sh.id == id
  | TimerAction.fireAR sh _ _ => sh.id == id
  | TimerAction.handoffAR sh => sh.id == id
  | _ => false

/-- Is this timer an AP-side chain timer of the shipment with this id? -/
def isAPFor (id : String) (t : Timer) : Bool :=
  match t.action with
  | TimerAction.startAP sh _ => sh.id == id
  | TimerAction.fireAP sh _ _ => sh.id == id
  | _ => false

/-- Is this timer an AR-side chain timer of the shipment with this id? -/
def isARFor (id : String) (t : Timer) : Bool :=
  match t.action with
  | TimerAction.fireAR sh _ _ => sh.id == id
  | TimerAction.handoffAR sh => sh.id == id
  | _ => false

/-- The step index targeted by a scheduled step timer. -/
def timerStepIndex : TimerAction → Option Nat
  | TimerAction.fireAP _ i _ => some i
  | TimerAction.fireAR _ i _ => some i
  | _ => none

/-- Does the activity log contain an AR-side activity for this shipment id
(the mark that AR playback has begun)? -/
def hasARActivity (s : DashState) (id : String) : Bool :=
  s.activities.any fun a => a.category == Category.ar && a.shipmentId == id

/-- Number of pending chain timers for a shipment id. -/
def chainCount (s : DashState) (id : String) : Nat :=
  s.timers.countP fun t => isChainFor id t

/-- Shape constraint on scheduled AP step callbacks: an audit_complete step
always carries the audit_pass AP status (true of every createAPSteps
output). -/
def stepShapeOK (t : Timer) : Bool :=
  match t.action with
  | TimerAction.fireAP _ _ step =>
    step.type != ActivityType.audit_complete ||
      step.status == StepStatus.ap APStatus.audit_pass
  | _ => true

/-- All fields of a shipment except the two status fields and the
pending-action marker. -/
def coreFields (sh : Shipment) :
    String × String × String × String × String × String ×
      Nat × Nat × Option Nat × Nat :=
  (sh.id, sh.shipmentNumber, sh.origin, sh.destination, sh.carrier,
   sh.shipper, sh.laneRate, sh.invoiceAmount, sh.detentionCharge, sh.createdAt)

/-! ### Basic lemmas about the step player -/

theorem runAP_timers (acts : List Activity) (s : DashState)
    (sh : Shipment) (i : Nat) :
    (runAPForShipment acts s sh i).timers =
      s.timers ++ scheduledAP acts s.now sh i := by
  unfold runAPForShipment scheduledAP
  dsimp only
  split <;> simp

theorem runAR_timers (acts : List Activity) (s : DashState)
    (sh : Shipment) (i : Nat) :
    (runARForShipment acts s sh i).timers =
      s.timers ++ scheduledAR acts s.now sh i := by
  unfold runARForShipment scheduledAR
  dsimp only
  split <;> simp

theorem runAP_shipments (acts : List Activity) (s : DashState)
    (sh : Shipment) (i : Nat) :
    (runAPForShipment acts s sh i).shipments = s.shipments := by
  unfold runAPForShipment
  dsimp only
  split <;> rfl

theorem runAR_shipments (acts : List Activity) (s : DashState)
    (sh : Shipment) (i : Nat) :
    (runARForShipment acts s sh i).shipments = s.shipments := by
  unfold runARForShipment
  dsimp only
  split <;> rfl

theorem runAP_activities (acts : List Activity) (s : DashState)
    (sh : Shipment) (i : Nat) :
    (runAPForShipment acts s sh i).activities = s.activities := by
  unfold runAPForShipment
  dsimp only
  split <;> rfl

theorem runAR_activities (acts : List Activity) (s : DashState)
    (sh : Shipment) (i : Nat) :
    (runARForShipment acts s sh i).activities = s.activities := by
  unfold runARForShipment
  dsimp only
  split <;> rfl

theorem runAP_completed (acts : List Activity) (s : DashState)
    (sh : Shipment) (i : Nat) :
    (runAPForShipment acts s sh i).completedAPShipments =
      s.completedAPShipments := by
  unfold runAPForShipment
  dsimp only
  split <;> rfl

theorem runAR_completed (acts : List Activity) (s : DashState)
    (sh : Shipment) (i : Nat) :
    (runARForShipment acts s sh i).completedAPShipments =
      s.completedAPShipments := by
  unfold runARForShipment
  dsimp only
  split <;> rfl

theorem scheduledAP_mem (acts : List Activity) (now : Nat) (sh : Shipment)
    (i : Nat) (t : Timer) (ht : t ∈ scheduledAP acts now sh i) :
    t.tracked = true ∧
      ∃ step ∈ createAPSteps sh acts,
        t.action = TimerAction.fireAP sh i step ∧ t.fireAt = now + step.delay := by
  unfold scheduledAP at ht
  dsimp only at ht
  split at ht
  case isTrue h =>
    simp only [List.mem_singleton] at ht
    subst ht
    exact ⟨rfl, (createAPSteps sh acts).get ⟨i, h⟩, (createAPSteps sh acts).get_mem _ _, rfl, rfl⟩
  case isFalse => simp at ht

theorem scheduledAR_mem (acts : List Activity) (now : Nat) (sh : Shipment)
    (i : Nat) (t : Timer) (ht : t ∈ scheduledAR acts now sh i) :
    t.tracked = true ∧
      ∃ step ∈ createARSteps sh acts,
        t.action = TimerAction.fireAR sh i step ∧ t.fireAt = now + step.delay := by
  unfold scheduledAR at ht
  dsimp only at ht
  split at ht
  case isTrue h =>
    simp only [List.mem_singleton] at ht
    subst ht
    exact ⟨rfl, (createARSteps sh acts).get ⟨i, h⟩, (createARSteps sh acts).get_mem _ _, rfl, rfl⟩
  case isFalse => simp at ht

theorem scheduledAP_length (acts : List Activity) (now : Nat) (sh : Shipment)
    (i : Nat) : (scheduledAP acts now sh i).length ≤ 1 := by
  unfold scheduledAP
  dsimp only
  split <;> simp

theorem scheduledAR_length (acts : List Activity) (now : Nat) (sh : Shipment)
    (i : Nat) : (scheduledAR acts now sh i).length ≤ 1 := by
  unfold scheduledAR
  dsimp only
  split <;> simp

/-! ### Shape lemmas for the authored scripts -/

/-- Well-formedness holding for every authored AP step: an audit_complete
step carries the audit_pass status, and an approval-gated step carries a
draft payload. -/
def stepWF (step : SimStep) : Bool :=
  (step.type != ActivityType.audit_complete ||
    step.status == StepStatus.ap APStatus.audit_pass) &&
  (!step.requiresApproval || step.draftContent.isSome)

theorem createAPSteps_wf (sh : Shipment) (acts : List Activity) :
    (createAPSteps sh acts).all stepWF = true := by
  unfold createAPSteps
  cases needsDocRequest acts <;> cases numTruthy sh.detentionCharge <;> rfl

theorem createARSteps_wf (sh : Shipment) (acts : List Activity) :
    (createARSteps sh acts).all stepWF = true := by
  unfold createARSteps
  rfl

/-! ### Claim C5: shape of the generated AP script -/

/-- A shipment whose detention charge is set, to the value 0.  The branch
conditions in createAPSteps test JavaScript truthiness of the field, so
this (set) charge selects the short branch. -/
def zeroDetentionShipment : Shipment :=
  { id := "SHP-100"
  , shipmentNumber := "FRT-2024-0999"
  , origin := "Chicago, IL"
  , destination := "Atlanta, GA"
  , carrier := "Prime Freight"
  , shipper := "GlobalMart Inc"
  , laneRate := 1950
  , invoiceAmount := 1950
  , detentionCharge := some 0
  , apStatus := APStatus.received
  , arStatus := ARStatus.preparing
  , createdAt := 0 }

/-- C5 counterexample: a shipment whose detention charge is set (to 0) whose
generated AP script contains no issue_found step at all — the detention
dispute branch is selected by JavaScript truthiness, not by presence. -/
theorem c5_counterexample :
    zeroDetentionShipment.detentionCharge.isSome = true ∧
    (createAPSteps zeroDetentionShipment []).all
      (fun step => step.type != ActivityType.issue_found) = true := by
  decide

/-- C5 (amended: a detention charge that is set but zero behaves like an
absent one): for every shipment with a truthy (nonzero, present) detention
charge, the generated AP script contains the dispute branch — an
issue_found step with status in_dispute, the detention-proof request step,
and the gate-log/ELD verification steps — and its final step is
audit_complete with status audit_pass; for every shipment with an absent or
zero detention charge, the script goes directly from the invoice-analysis
step to the audit_complete step, which is its last. -/
theorem c5_apScript (sh : Shipment) (acts : List Activity) :
    (numTruthy sh.detentionCharge = true →
      (∃ j, ((createAPSteps sh acts).get? j).map (fun st => (st.type, st.status)) =
          some (ActivityType.issue_found, StepStatus.ap APStatus.in_dispute)) ∧
      (∃ j, ((createAPSteps sh acts).get? j).map SimStep.title =
          some ("Requesting Detention Proof - " ++ sh.shipmentNumber)) ∧
      (∃ j, ((createAPSteps sh acts).get? j).map SimStep.title =
          some ("Gate Log Verified - " ++ sh.shipmentNumber)) ∧
      (∃ j, ((createAPSteps sh acts).get? j).map SimStep.title =
          some ("ELD Report Verified - " ++ sh.shipmentNumber)) ∧
      ((createAPSteps sh acts).getLast?.map (fun st => (st.type, st.status)) =
          some (ActivityType.audit_complete, StepStatus.ap APStatus.audit_pass))) ∧
    (numTruthy sh.detentionCharge = false →
      ∃ k, ((createAPSteps sh acts).get? k).map SimStep.title =
              some ("Invoice Analysis - " ++ sh.shipmentNumber) ∧
           ((createAPSteps sh acts).get? (k + 1)).map (fun st => (st.type, st.status)) =
              some (ActivityType.audit_complete, StepStatus.ap APStatus.audit_pass) ∧
           (createAPSteps sh acts).length = k + 2) := by
  unfold createAPSteps
  cases needsDocRequest acts <;> cases numTruthy sh.detentionCharge
  · exact ⟨fun h => absurd h (by decide), fun _ => ⟨4, rfl, rfl, rfl⟩⟩
  · exact ⟨fun _ => ⟨⟨5, rfl⟩, ⟨7, rfl⟩, ⟨12, rfl⟩, ⟨13, rfl⟩, rfl⟩,
      fun h => absurd h (by decide)⟩
  · exact ⟨fun h => absurd h (by decide), fun _ => ⟨7, rfl, rfl, rfl⟩⟩
  · exact ⟨fun _ => ⟨⟨8, rfl⟩, ⟨10, rfl⟩, ⟨15, rfl⟩, ⟨16, rfl⟩, rfl⟩,
      fun h => absurd h (by decide)⟩

/-- The first seeded shipment (the one with a detention charge). -/
def seedShipment1 : Shipment := INITIAL_SHIPMENTS.get ⟨0, by decide⟩

/-- The second seeded shipment (no detention charge). -/
def seedShipment2 : Shipment := INITIAL_SHIPMENTS.get ⟨1, by decide⟩

/-- C5 witness: evaluation of the amended claim on the seeded shipment with
a $300 detention charge and on the seeded shipment without one. -/
theorem c5_apScript_witness :
    ((createAPSteps seedShipment1 []).getLast?.map
        (fun st => (st.type, st.status)) =
      some (ActivityType.audit_complete, StepStatus.ap APStatus.audit_pass)) ∧
    (∃ k, ((createAPSteps seedShipment2 []).get? k).map SimStep.title =
            some ("Invoice Analysis - " ++ seedShipment2.shipmentNumber) ∧
         ((createAPSteps seedShipment2 []).get? (k + 1)).map
            (fun st => (st.type, st.status)) =
            some (ActivityType.audit_complete, StepStatus.ap APStatus.audit_pass) ∧
         (createAPSteps seedShipment2 []).length = k + 2) :=
  ⟨((c5_apScript seedShipment1 []).1
      (by decide)).2.2.2.2,
   (c5_apScript seedShipment2 []).2 (by decide)⟩

/-! ### Frame lemmas for the shipment-list update pattern -/

theorem updateShipment_length (l : List Shipment) (id : String)
    (f : Shipment → Shipment) : (updateShipment l id f).length = l.length := by
  simp [updateShipment]

theorem updateShipment_core (l : List Shipment) (id : String)
    (f : Shipment → Shipment) (hf : ∀ sh, coreFields (f sh) = coreFields sh) :
    (updateShipment l id f).map coreFields = l.map coreFields := by
  unfold updateShipment
  rw [List.map_map]
  apply List.map_congr_left
  intro sh _
  by_cases h : sh.id = id <;> simp [h, hf]

theorem updateShipment_get?_ne (l : List Shipment) (id : String)
    (f : Shipment → Shipment) (j : Nat) (sh0 : Shipment)
    (h : l.get? j = some sh0) (hne : sh0.id ≠ id) :
    (updateShipment l id f).get? j = some sh0 := by
  unfold updateShipment
  rw [List.get?_map, h]
  simp [hne]

/-- Firing an AP step rewrites the shipment list through updateShipment
with a function that only changes apStatus and pendingAction. -/
theorem fireAP_shipments (s : DashState) (shipment : Shipment) (i : Nat)
    (step : SimStep) :
    ∃ f : Shipment → Shipment, (∀ sh, coreFields (f sh) = coreFields sh) ∧
      (fireAPStep s shipment i step).shipments =
        updateShipment s.shipments shipment.id f := by
  unfold fireAPStep
  obtain ⟨delay, ty, title, desc, status, doc, reqAp, pat, dc⟩ := step
  cases reqAp
  · simp only [Bool.false_eq_true, if_false]
    split
    · refine ⟨_, ?_, rfl⟩
      intro sh
      rfl
    · refine ⟨_, ?_, by rw [runAP_shipments]⟩
      intro sh
      rfl
  · cases dc <;>
      · refine ⟨_, ?_, rfl⟩
        intro sh
        rfl

/-- Firing an AR step rewrites the shipment list through updateShipment
with a function that only changes arStatus and pendingAction. -/
theorem fireAR_shipments (s : DashState) (shipment : Shipment) (i : Nat)
    (step : SimStep) :
    ∃ f : Shipment → Shipment, (∀ sh, coreFields (f sh) = coreFields sh) ∧
      (fireARStep s shipment i step).shipments =
        updateShipment s.shipments shipment.id f := by
  unfold fireARStep
  obtain ⟨delay, ty, title, desc, status, doc, reqAp, pat, dc⟩ := step
  cases reqAp <;> cases dc <;>
    first
      | · refine ⟨_, ?_, rfl⟩
          intro sh
          rfl
      | · refine ⟨_, ?_, by rw [runAR_shipments]⟩
          intro sh
          rfl

/-! ### Claim C3: a gated step halts the shipment and records the draft -/

/-- C3: when an approval-gated step fires (in either phase), the player
records the step's draft as the shipment's pending draft, prepends exactly
one activity flagged pendingAction, marks the shipment input_required with
its pending-action marker, and schedules no timer at all — playback of the
shipment halts until the external approve action. -/
theorem c3_gatedStepHalts (s : DashState) (shipment : Shipment) (i : Nat)
    (step : SimStep) (d : DraftContent) (hap : step.requiresApproval = true)
    (hd : step.draftContent = some d) :
    ((fireAPStep s shipment i step).pendingDrafts =
        setKey s.pendingDrafts shipment.id d ∧
      (∃ a, (fireAPStep s shipment i step).activities = a :: s.activities ∧
        a.shipmentId = shipment.id ∧
        a.metadata = some { document := none, pendingAction := some true }) ∧
      (fireAPStep s shipment i step).shipments =
        updateShipment s.shipments shipment.id (fun sh =>
          { sh with apStatus := APStatus.input_required
                  , pendingAction := some (step.pendingActionType.getD
                      PendingActionType.approve_email) }) ∧
      (fireAPStep s shipment i step).timers = s.timers) ∧
    ((fireARStep s shipment i step).pendingDrafts =
        setKey s.pendingDrafts shipment.id d ∧
      (∃ a, (fireARStep s shipment i step).activities = a :: s.activities ∧
        a.shipmentId = shipment.id ∧
        a.metadata = some { document := none, pendingAction := some true }) ∧
      (fireARStep s shipment i step).shipments =
        updateShipment s.shipments shipment.id (fun sh =>
          { sh with arStatus := ARStatus.input_required
                  , pendingAction := some PendingActionType.approve_email }) ∧
      (fireARStep s shipment i step).timers = s.timers) := by
  obtain ⟨delay, ty, title, desc, status, doc, reqAp, pat, dc⟩ := step
  cases hap
  cases hd
  exact ⟨⟨rfl, ⟨_, rfl, rfl, rfl⟩, rfl, rfl⟩, ⟨rfl, ⟨_, rfl, rfl, rfl⟩, rfl, rfl⟩⟩

/-- C3 witness: the document-request draft step of the first seeded
shipment, fired from the started state. -/
theorem c3_gatedStepHalts_witness :
    (fireAPStep startState seedShipment1 1
        ((createAPSteps seedShipment1 []).get ⟨1, by decide⟩)).timers =
      startState.timers ∧
    (∃ a, (fireAPStep startState seedShipment1 1
        ((createAPSteps seedShipment1 []).get ⟨1, by decide⟩)).activities =
      a :: startState.activities ∧
      a.shipmentId = seedShipment1.id ∧
      a.metadata = some { document := none, pendingAction := some true }) :=
  ⟨((c3_gatedStepHalts startState seedShipment1 1
      ((createAPSteps seedShipment1 []).get ⟨1, by decide⟩)
      (((createAPSteps seedShipment1 []).get ⟨1, by decide⟩).draftContent.getD
        { toAddr := "", subject := "", body := "" })
      (by decide) (by decide)).1).2.2.2,
   ((c3_gatedStepHalts startState seedShipment1 1
      ((createAPSteps seedShipment1 []).get ⟨1, by decide⟩)
      (((createAPSteps seedShipment1 []).get ⟨1, by decide⟩).draftContent.getD
        { toAddr := "", subject := "", body := "" })
      (by decide) (by decide)).1).2.1⟩

/-! ### Claim C7: step firings only touch the fired shipment's status -/

/-- C7: firing any scripted step (gated or not, AP or AR) leaves the
shipment-list length unchanged, changes no field other than apStatus,
arStatus and pendingAction on any shipment, and leaves every shipment other
than the step's own completely unchanged. -/
theorem c7_fireFrame (s : DashState) (shipment : Shipment) (i : Nat)
    (step : SimStep) :
    ((fireAPStep s shipment i step).shipments.length = s.shipments.length ∧
      (fireAPStep s shipment i step).shipments.map coreFields =
        s.shipments.map coreFields ∧
      ∀ j sh0, s.shipments.get? j = some sh0 → sh0.id ≠ shipment.id →
        (fireAPStep s shipment i step).shipments.get? j = some sh0) ∧
    ((fireARStep s shipment i step).shipments.length = s.shipments.length ∧
      (fireARStep s shipment i step).shipments.map coreFields =
        s.shipments.map coreFields ∧
      ∀ j sh0, s.shipments.get? j = some sh0 → sh0.id ≠ shipment.id →
        (fireARStep s shipment i step).shipments.get? j = some sh0) := by
  obtain ⟨f, hf, heq⟩ := fireAP_shipments s shipment i step
  obtain ⟨g, hg, heq2⟩ := fireAR_shipments s shipment i step
  rw [heq, heq2]
  exact ⟨⟨updateShipment_length _ _ _, updateShipment_core _ _ _ hf,
      fun j sh0 h hne => updateShipment_get?_ne _ _ _ j sh0 h hne⟩,
    ⟨updateShipment_length _ _ _, updateShipment_core _ _ _ hg,
      fun j sh0 h hne => updateShipment_get?_ne _ _ _ j sh0 h hne⟩⟩

/-- C7 witness: the frame property evaluated at the delivery-confirmation
step of the first seeded shipment in the started state. -/
theorem c7_fireFrame_witness :
    (fireAPStep startState seedShipment1 0
        ((createAPSteps seedShipment1 []).get ⟨0, by decide⟩)).shipments.map
      coreFields = startState.shipments.map coreFields ∧
    (fireAPStep startState seedShipment1 0
        ((createAPSteps seedShipment1 []).get ⟨0, by decide⟩)).shipments.get? 1 =
      some seedShipment2 :=
  ⟨((c7_fireFrame startState seedShipment1 0
      ((createAPSteps seedShipment1 []).get ⟨0, by decide⟩)).1).2.1,
   ((c7_fireFrame startState seedShipment1 0
      ((createAPSteps seedShipment1 []).get ⟨0, by decide⟩)).1).2.2 1
      seedShipment2 (by decide) (by decide)⟩

/-! ### Claim C8: the activity log is append-only under step firings -/

/-- C8: every step firing (gated or not, AP or AR) prepends exactly one new
activity and leaves the existing log verbatim as the tail: nothing is
removed, reordered, or modified by a step firing. -/
theorem c8_appendOnly (s : DashState) (shipment : Shipment) (i : Nat)
    (step : SimStep) :
    (∃ a, (fireAPStep s shipment i step).activities = a :: s.activities) ∧
    (∃ a, (fireARStep s shipment i step).activities = a :: s.activities) := by
  constructor
  · unfold fireAPStep
    split
    · split <;> exact ⟨_, rfl⟩
    · split
      · exact ⟨_, rfl⟩
      · rw [runAP_activities]
        exact ⟨_, rfl⟩
  · unfold fireARStep
    split
    · exact ⟨_, rfl⟩
    · rw [runAR_activities]
      exact ⟨_, rfl⟩

/-! ### Claim C2: approval resumes at the step after the gate -/

/-- C2: for a shipment with a recorded active step index (the gated step
that halted it), the external approve action succeeds and re-enters the
player at exactly the recorded index plus one — in the AR script when the
shipment's AP audit has completed, in the AP script otherwise — and every
timer it creates targets step index g + 1, which is never 0. -/
theorem c2_approveResumesAfterGate (s : DashState) (shipmentId : String)
    (shipment : Shipment) (g : Nat)
    (hfind : s.shipments.find? (fun sh => sh.id == shipmentId) = some shipment)
    (hstep : lookupKey s.activeShipmentSteps shipmentId = some g) :
    ∃ s', handleApproveAction s shipmentId = some s' ∧
      s'.timers = s.timers ++
        (if shipmentId ∈ s.completedAPShipments then
          scheduledAR s.activities s.now shipment (g + 1)
        else
          scheduledAP s.activities s.now shipment (g + 1)) ∧
      (∀ t ∈ s'.timers, t ∉ s.timers →
        timerStepIndex t.action = some (g + 1)) ∧
      g + 1 ≠ 0 := by
  simp only [handleApproveAction, hfind, hstep]
  by_cases hc : shipmentId ∈ s.completedAPShipments
  · rw [if_pos hc, if_pos hc]
    refine ⟨_, rfl, ?_, ?_, Nat.succ_ne_zero g⟩
    · rw [runAR_timers]
    · intro t ht hnt
      rw [runAR_timers] at ht
      rcases List.mem_append.mp ht with h | h
      · exact absurd h hnt
      · obtain ⟨_, step, _, hact, _⟩ := scheduledAR_mem _ _ _ _ _ h
        rw [hact]
        rfl
  · rw [if_neg hc, if_neg hc]
    refine ⟨_, rfl, ?_, ?_, Nat.succ_ne_zero g⟩
    · rw [runAP_timers]
    · intro t ht hnt
      rw [runAP_timers] at ht
      rcases List.mem_append.mp ht with h | h
      · exact absurd h hnt
      · obtain ⟨_, step, _, hact, _⟩ := scheduledAP_mem _ _ _ _ _ h
        rw [hact]
        rfl

/-- The state after six timer firings from the started state: the second
seeded shipment has just halted at its document-request gate, with recorded
active step index 1. -/
def gatedState : DashState := advanceN 6 startState

/-- C2 witness: approving the gated second shipment from that state
succeeds, and every timer the approve action creates targets step index 2
(the step after the gate), never step 0. -/
theorem c2_approveResumesAfterGate_witness :
    ∃ s', handleApproveAction gatedState "SHP-002" = some s' ∧
      (∀ t ∈ s'.timers, t ∉ gatedState.timers →
        timerStepIndex t.action = some 2) := by
  obtain ⟨s', h1, _, h3, _⟩ := c2_approveResumesAfterGate gatedState "SHP-002"
    { seedShipment2 with apStatus := APStatus.input_required
                       , pendingAction := some PendingActionType.approve_email }
    1 (by decide) (by decide)
  exact ⟨s', h1, h3⟩

/-! ### Claim C10: global resume re-enters at saved indices, skipping gated shipments -/

/-- Where a single resume iteration may legitimately point a new timer for
shipment `sh`: at the saved active index, in the AR script when the AP audit
is recorded complete and in the AP script otherwise; or at step 0 when the
shipment has no saved index and the phase is not complete. -/
def resumeTarget (env : DashState) (sh : Shipment) (t : Timer) : Prop :=
  (∃ i, lookupKey env.activeShipmentSteps sh.id = some i ∧
     ((sh.id ∈ env.completedAPShipments ∧
        ∃ step, t.action = TimerAction.fireAR sh i step) ∨
      (sh.id ∉ env.completedAPShipments ∧
        ∃ step, t.action = TimerAction.fireAP sh i step))) ∨
  (lookupKey env.activeShipmentSteps sh.id = none ∧
    env.simulation.currentPhase ≠ Phase.complete ∧
    ∃ step, t.action = TimerAction.fireAP sh 0 step)

theorem resumeOne_timers (env acc : DashState) (sh : Shipment) :
    ∀ t ∈ (resumeOne env acc sh).timers, t ∈ acc.timers ∨
      (¬sh.pendingAction = some PendingActionType.approve_email ∧
        resumeTarget env sh t) := by
  intro t ht
  unfold resumeOne at ht
  split at ht
  case isTrue => exact Or.inl ht
  case isFalse hskip =>
    have hpa : ¬sh.pendingAction = some PendingActionType.approve_email := by
      simpa using hskip
    rcases hl : lookupKey env.activeShipmentSteps sh.id with _ | i
    · rw [hl] at ht
      dsimp only at ht
      split at ht
      case isTrue hphase =>
        rw [runAP_timers] at ht
        rcases List.mem_append.mp ht with h | h
        · exact Or.inl h
        · obtain ⟨_, step, _, hact, _⟩ := scheduledAP_mem _ _ _ _ _ h
          exact Or.inr ⟨hpa, Or.inr ⟨hl, by simpa using hphase, step, hact⟩⟩
      case isFalse => exact Or.inl ht
    · rw [hl] at ht
      dsimp only at ht
      split at ht
      case isTrue hc =>
        rw [runAR_timers] at ht
        rcases List.mem_append.mp ht with h | h
        · exact Or.inl h
        · obtain ⟨_, step, _, hact, _⟩ := scheduledAR_mem _ _ _ _ _ h
          exact Or.inr ⟨hpa, Or.inl ⟨i, hl, Or.inl ⟨hc, step, hact⟩⟩⟩
      case isFalse hc =>
        rw [runAP_timers] at ht
        rcases List.mem_append.mp ht with h | h
        · exact Or.inl h
        · obtain ⟨_, step, _, hact, _⟩ := scheduledAP_mem _ _ _ _ _ h
          exact Or.inr ⟨hpa, Or.inl ⟨i, hl, Or.inr ⟨hc, step, hact⟩⟩⟩

theorem resume_fold_timers (env : DashState) :
    ∀ (l : List Shipment) (acc : DashState),
      ∀ t ∈ (l.foldl (resumeOne env) acc).timers, t ∈ acc.timers ∨
        ∃ sh ∈ l, ¬sh.pendingAction = some PendingActionType.approve_email ∧
          resumeTarget env sh t := by
  intro l
  induction l with
  | nil => intro acc t ht; exact Or.inl ht
  | cons sh l ih =>
    intro acc t ht
    rcases ih (resumeOne env acc sh) t ht with h | ⟨sh', hmem, h⟩
    · rcases resumeOne_timers env acc sh t h with h2 | h2
      · exact Or.inl h2
      · exact Or.inr ⟨sh, List.mem_cons_self sh l, h2⟩
    · exact Or.inr ⟨sh', List.mem_cons_of_mem sh hmem, h⟩

/-- C10: every timer the global resume creates belongs to a shipment whose
pendingAction is not the approve_email gate marker — a gated shipment gets
nothing scheduled by resume — and targets the shipment's saved active step
index (AR script when its AP audit is recorded complete, AP script
otherwise), or step 0 when the shipment has not started and the phase is
not complete. -/
theorem c10_resumeSkipsGated (s : DashState) (t : Timer)
    (ht : t ∈ (resumeSimulation s).timers) (hnt : t ∉ s.timers) :
    ∃ sh ∈ s.shipments,
      ¬sh.pendingAction = some PendingActionType.approve_email ∧
      resumeTarget s sh t := by
  unfold resumeSimulation at ht
  rcases resume_fold_timers s s.shipments _ t ht with h | h
  · exact absurd h hnt
  · exact h

/-- The pause of the state in which the second shipment is gated. -/
def pausedGatedState : DashState := pauseSimulation gatedState

/-- The resume of that paused state. -/
def resumedState : DashState := resumeSimulation pausedGatedState

/-- C10 witness: the single timer created by resuming the paused gated
state belongs to the third shipment (never started, hence step 0); the two
gated shipments get nothing scheduled. -/
theorem c10_resumeSkipsGated_witness :
    ∃ sh ∈ pausedGatedState.shipments,
      ¬sh.pendingAction = some PendingActionType.approve_email ∧
      resumeTarget pausedGatedState sh (resumedState.timers.get ⟨0, by decide⟩) :=
  c10_resumeSkipsGated pausedGatedState (resumedState.timers.get ⟨0, by decide⟩)
    (by decide) (by decide)

/-! ### The timer queue: dispatch facts -/

theorem extractMin_eq_none : ∀ l : List Timer, extractMin l = none → l = [] := by
  intro l h
  cases l with
  | nil => rfl
  | cons a ts =>
    unfold extractMin at h
    rcases he : extractMin ts with _ | ⟨u, rest⟩ <;> rw [he] at h <;> dsimp only at h
    · simp at h
    · split at h <;> simp at h

theorem extractMin_decomp :
    ∀ (l : List Timer) (t : Timer) (rest : List Timer),
      extractMin l = some (t, rest) →
      ∃ l1 l2, l = l1 ++ t :: l2 ∧ rest = l1 ++ l2 := by
  intro l
  induction l with
  | nil => intro t rest h; simp [extractMin] at h
  | cons a ts ih =>
    intro t rest h
    unfold extractMin at h
    rcases he : extractMin ts with _ | ⟨u, rest2⟩ <;> rw [he] at h <;> dsimp only at h
    · have hts : ts = [] := extractMin_eq_none ts he
      simp only [Option.some.injEq, Prod.mk.injEq] at h
      obtain ⟨rfl, hrest⟩ := h
      subst hts
      exact ⟨[], [], rfl, hrest.symm⟩
    · split at h
      · simp only [Option.some.injEq, Prod.mk.injEq] at h
        obtain ⟨rfl, rfl⟩ := h
        exact ⟨[], ts, rfl, rfl⟩
      · simp only [Option.some.injEq, Prod.mk.injEq] at h
        obtain ⟨rfl, rfl⟩ := h
        obtain ⟨l1, l2, hl, hr⟩ := ih u rest2 he
        exact ⟨a :: l1, l2, by rw [hl]; rfl, by rw [hr]; rfl⟩

theorem extractMin_min :
    ∀ (l : List Timer) (t : Timer) (rest : List Timer),
      extractMin l = some (t, rest) → ∀ u ∈ l, t.fireAt ≤ u.fireAt := by
  intro l
  induction l with
  | nil => intro t rest h; simp [extractMin] at h
  | cons a ts ih =>
    intro t rest h u hu
    unfold extractMin at h
    rcases he : extractMin ts with _ | ⟨v, rest2⟩ <;> rw [he] at h <;> dsimp only at h
    · have hts : ts = [] := extractMin_eq_none ts he
      simp only [Option.some.injEq, Prod.mk.injEq] at h
      obtain ⟨rfl, _⟩ := h
      subst hts
      rcases List.mem_singleton.mp hu with rfl
      exact le_refl _
    · split at h
      case isTrue hle =>
        simp only [Option.some.injEq, Prod.mk.injEq] at h
        obtain ⟨rfl, _⟩ := h
        rcases List.mem_cons.mp hu with rfl | hu2
        · exact le_refl _
        · exact le_trans hle (ih v rest2 he u hu2)
      case isFalse hgt =>
        simp only [Option.some.injEq, Prod.mk.injEq] at h
        obtain ⟨rfl, _⟩ := h
        rcases List.mem_cons.mp hu with rfl | hu2
        · exact le_of_not_le (by simpa using hgt)
        · exact ih v rest2 he u hu2

theorem advanceN_nil (s : DashState) (h : s.timers = []) :
    ∀ n, advanceN n s = s := by
  intro n
  cases n with
  | zero => rfl
  | succ n =>
    unfold advanceN advanceOnce
    rw [h]
    rfl

/-! ### Claim C4: what pausing clears, and quiescence afterwards -/

/-- C4 (amended: the AP-to-AR handoff timer is not tracked and survives a
pause): pauseSimulation clears exactly the tracked timers; every timer the
step player itself schedules is tracked; and when no untracked handoff is
pending at the pause, the paused state has no timer at all and no amount of
timer dispatch ever changes it — in particular no activity is ever appended
— until an explicit start or resume. -/
theorem c4_pauseClearsTracked (s : DashState) (n : Nat) :
    (pauseSimulation s).timers = s.timers.filter (fun t => !t.tracked) ∧
    (∀ acts now sh i, ∀ t ∈ scheduledAP acts now sh i, t.tracked = true) ∧
    (∀ acts now sh i, ∀ t ∈ scheduledAR acts now sh i, t.tracked = true) ∧
    ((pauseSimulation s).timers = [] →
      advanceN n (pauseSimulation s) = pauseSimulation s) := by
  refine ⟨rfl, ?_, ?_, ?_⟩
  · intro acts now sh i t ht
    exact (scheduledAP_mem acts now sh i t ht).1
  · intro acts now sh i t ht
    exact (scheduledAR_mem acts now sh i t ht).1
  · intro h
    exact advanceN_nil _ h n

/-- C4 witness: pausing the freshly started state (whose five timers are
all tracked) empties the queue, and dispatch is then inert. -/
theorem c4_pauseClearsTracked_witness :
    (pauseSimulation startState).timers = [] ∧
    advanceN 3 (pauseSimulation startState) = pauseSimulation startState :=
  ⟨by decide, (c4_pauseClearsTracked startState 3).2.2.2 (by decide)⟩

/-- Events reaching the state where the second shipment's audit_complete
has just fired (one approval, then timer dispatch), whose untracked
AP-to-AR handoff timer is pending. -/
def handoffPendingEvents : List Event :=
  List.replicate 6 Event.advance ++ [Event.approve "SHP-002"] ++
    List.replicate 10 Event.advance

/-- Those events followed by a pause during the handoff window. -/
def c4PauseEvents : List Event := handoffPendingEvents ++ [Event.pause]

/-- The paused state with the handoff pending. -/
def c4Paused : DashState := (execEvents startState c4PauseEvents).getD dashInit

/-- C4 counterexample: pausing during the 2000 ms AP-to-AR handoff window
leaves the untracked handoff timer pending, and two further timer firings
(no start or resume in between) append a new activity after the pause. -/
theorem c4_counterexample :
    (execEvents startState c4PauseEvents).isSome = true ∧
    c4Paused.timers.length = 1 ∧
    c4Paused.timers.all (fun t => !t.tracked) = true ∧
    c4Paused.simulation.isRunning = false ∧
    (advanceN 2 c4Paused).activities.length = c4Paused.activities.length + 1 := by
  decide

/-! ### Claim C6: steps fire unconditionally, except behind the gate -/

/-- C6 (amended: steps following an approval-gated step are withheld until
the approve action): dispatch always fires the earliest pending timer,
leaves every other pending timer pending, and never drops one; each timer
scheduled by the step player fires at its scheduling time plus the step's
authored delay; and the only scripted condition that withholds steps is the
approval gate, whose firing schedules nothing. -/
theorem c6_firesUnconditionally (s : DashState) :
    (∀ t rest, extractMin s.timers = some (t, rest) →
      advanceOnce s =
        some (applyTimerAction { s with now := t.fireAt, timers := rest } t.action) ∧
      (∀ u ∈ s.timers, t.fireAt ≤ u.fireAt) ∧
      (∀ u ∈ s.timers, u = t ∨ u ∈ rest)) ∧
    (∀ acts sh i, ∀ t ∈ scheduledAP acts s.now sh i,
      ∃ step ∈ createAPSteps sh acts, t.fireAt = s.now + step.delay) ∧
    (∀ sh i step, step.requiresApproval = true →
      (fireAPStep s sh i step).timers = s.timers ∧
      (step.draftContent.isSome = true →
        (fireARStep s sh i step).timers = s.timers)) := by
  refine ⟨?_, ?_, ?_⟩
  · intro t rest h
    refine ⟨by unfold advanceOnce; rw [h], extractMin_min s.timers t rest h, ?_⟩
    intro u hu
    obtain ⟨l1, l2, hl, hr⟩ := extractMin_decomp s.timers t rest h
    rw [hl] at hu
    rcases List.mem_append.mp hu with h1 | h1
    · exact Or.inr (hr ▸ List.mem_append_left l2 h1)
    · rcases List.mem_cons.mp h1 with rfl | h2
      · exact Or.inl rfl
      · exact Or.inr (hr ▸ List.mem_append_right l1 h2)
  · intro acts sh i t ht
    obtain ⟨_, step, hstep, _, hat⟩ := scheduledAP_mem acts s.now sh i t ht
    exact ⟨step, hstep, hat⟩
  · intro sh i step hap
    obtain ⟨delay, ty, title, desc, status, doc, reqAp, pat, dc⟩ := step
    cases hap
    constructor
    · cases dc <;> rfl
    · intro hd
      obtain ⟨d, hd'⟩ := Option.isSome_iff_exists.mp hd
      cases hd'
      rfl

/-- C6 witness: dispatch of the earliest timer of the started state. -/
theorem c6_firesUnconditionally_witness :
    advanceOnce startState =
      some (applyTimerAction
        { startState with
          now := (startState.timers.get ⟨0, by decide⟩).fireAt
          timers := startState.timers.drop 1 }
        (startState.timers.get ⟨0, by decide⟩).action) ∧
    (∀ u ∈ startState.timers,
      (startState.timers.get ⟨0, by decide⟩).fireAt ≤ u.fireAt) := by
  obtain ⟨h1, h2, _⟩ := (c6_firesUnconditionally startState).1
    (startState.timers.get ⟨0, by decide⟩) (startState.timers.drop 1) (by decide)
  exact ⟨h1, h2⟩

/-- The no-approval run: the started state advanced until no timer remains
(11 firings: three staggered kickoffs, two steps per shipment up to each
document-request gate, the phase timer and the completion timer). -/
def noApproveFinal : DashState := advanceN 11 startState

/-- C6 counterexample: in the run with no approve action, playback of the
first shipment began (two activities fired) and its script has a third
step, yet the queue is empty and dispatch is inert — the step at index 2
never fires, although no pause or reset ever cleared a timer. -/
theorem c6_counterexample :
    noApproveFinal.timers = [] ∧
    advanceOnce noApproveFinal = none ∧
    (noApproveFinal.activities.filter
      (fun a => a.shipmentId == "SHP-001")).length = 2 ∧
    2 < (createAPSteps seedShipment1 []).length ∧
    noApproveFinal.activities.all
      (fun a => a.title != "AI Requests Documents - WFL-2026-0847") = true := by
  decide

/-! ### Claim C9: completion is a fixed wall-clock timer -/

/-- C9: startSimulation always schedules a tracked setComplete timer at
exactly 120000 ms, independent of shipment progress; and in the run with no
approve action the phase is complete and playback stopped while every
shipment is still input_required with an unresolved pending draft. -/
theorem c9_completionTimer (s : DashState) :
    ({ fireAt := s.now + 120000, tracked := true
     , action := TimerAction.setComplete } : Timer) ∈ (startSimulation s).timers ∧
    noApproveFinal.simulation.currentPhase = Phase.complete ∧
    noApproveFinal.simulation.isRunning = false ∧
    ∃ sh ∈ noApproveFinal.shipments, sh.apStatus = APStatus.input_required ∧
      (lookupKey noApproveFinal.pendingDrafts sh.id).isSome = true := by
  refine ⟨?_, by decide, by decide, ?_⟩
  · unfold startSimulation clearTimeouts
    dsimp only
    refine List.mem_append_right _ ?_
    simp
  · exact ⟨noApproveFinal.shipments.get ⟨0, by decide⟩, by decide, by decide, by decide⟩

/-! ### Claim C1: the AP-before-AR discipline, and its reachability invariant -/

/-- Per-shipment inductive invariant: a shipment recorded complete has the
terminal audit_pass status; AR-side evidence (a pending AR timer or a
logged AR activity) implies recorded completion; a pending AP-side timer
implies the shipment is not recorded complete; at most one chain timer per
shipment is pending; and a shipment halted on a pending action has no chain
timer at all. -/
def invShip (s : DashState) (sh : Shipment) : Prop :=
  (sh.id ∈ s.completedAPShipments → sh.apStatus = APStatus.audit_pass) ∧
  ((∃ t ∈ s.timers, isARFor sh.id t = true) ∨ hasARActivity s sh.id = true →
    sh.id ∈ s.completedAPShipments) ∧
  ((∃ t ∈ s.timers, isAPFor sh.id t = true) → sh.id ∉ s.completedAPShipments) ∧
  chainCount s sh.id ≤ 1 ∧
  (sh.pendingAction.isSome = true → chainCount s sh.id = 0)

/-- The inductive invariant: every shipment satisfies its clause, and every
pending AP step timer carries a well-shaped step. -/
def inv (s : DashState) : Prop :=
  (∀ sh ∈ s.shipments, invShip s sh) ∧ (∀ t ∈ s.timers, stepShapeOK t = true)

/-- The events under which the discipline is preserved: timer dispatch,
pause, and approve.  resume can double-schedule a chain (approve while
paused, then resume) and start/reset survive the untracked handoff timer;
both can break the discipline. -/
def Event.safe : Event → Bool
  | Event.resume => false
  | Event.start => false
  | Event.reset => false
  | _ => true

/-! ### Helper lemmas for the invariant proof -/

theorem chain_eq_or (id : String) (t : Timer) :
    isChainFor id t = (isAPFor id t || isARFor id t) := by
  obtain ⟨fa, tr, act⟩ := t
  cases act <;> simp [isChainFor, isAPFor, isARFor]

theorem mem_updateShipment (l : List Shipment) (id : String)
    (f : Shipment → Shipment) (sh' : Shipment)
    (h : sh' ∈ updateShipment l id f) :
    ∃ sh ∈ l, (sh.id = id ∧ sh' = f sh) ∨ (sh.id ≠ id ∧ sh' = sh) := by
  unfold updateShipment at h
  obtain ⟨sh, hmem, heq⟩ := List.mem_map.mp h
  by_cases hc : sh.id = id
  · rw [if_pos (by simpa using hc)] at heq
    exact ⟨sh, hmem, Or.inl ⟨hc, heq.symm⟩⟩
  · rw [if_neg (by simpa using hc)] at heq
    exact ⟨sh, hmem, Or.inr ⟨hc, heq.symm⟩⟩

theorem countP_decomp (l1 l2 : List Timer) (t : Timer)
    (p : Timer → Bool) :
    (l1 ++ t :: l2).countP p =
      (l1 ++ l2).countP p + (if p t then 1 else 0) := by
  simp only [List.countP_append, List.countP_cons]
  split <;> omega

/-- An AR-evidence activity prepended with an AP category leaves
hasARActivity unchanged. -/
theorem hasAR_cons_ap (s s' : DashState) (a : Activity)
    (hcat : a.category = Category.ap)
    (hact : s'.activities = a :: s.activities) (id : String) :
    hasARActivity s' id = hasARActivity s id := by
  unfold hasARActivity
  rw [hact]
  simp [hcat]

/-- Prepending an AR activity: AR evidence for an id is either the new
activity's shipment or evidence already present. -/
theorem hasAR_cons_ar (s s' : DashState) (a : Activity)
    (hact : s'.activities = a :: s.activities) (id : String)
    (h : hasARActivity s' id = true) :
    a.shipmentId = id ∨ hasARActivity s id = true := by
  unfold hasARActivity at h ⊢
  rw [hact] at h
  simp only [List.any_cons, Bool.or_eq_true, Bool.and_eq_true, beq_iff_eq] at h
  rcases h with ⟨_, h2⟩ | h
  · exact Or.inl h2
  · exact Or.inr h

theorem mem_addCompleted (l : List String) (x id : String)
    (h : id ∈ addCompleted l x) : id ∈ l ∨ id = x := by
  unfold addCompleted at h
  split at h
  · exact Or.inl h
  · rcases List.mem_append.mp h with h | h
    · exact Or.inl h
    · exact Or.inr (List.mem_singleton.mp h)

theorem mem_addCompleted_self (l : List String) (x : String) :
    x ∈ addCompleted l x := by
  unfold addCompleted
  split
  · assumption
  · exact List.mem_append_right l (List.mem_singleton.mpr rfl)

theorem mem_addCompleted_of_mem (l : List String) (x id : String)
    (h : id ∈ l) : id ∈ addCompleted l x := by
  unfold addCompleted
  split
  · exact h
  · exact List.mem_append_left _ h

/-- The activity map performed by handleApproveAction (flipping the
pendingAction flag on matching draft activities) preserves the category and
owning shipment of every entry, hence AR evidence. -/
theorem hasAR_map_flip (acts : List Activity)
    (g : Activity → Activity)
    (hg : ∀ a, (g a).category = a.category ∧ (g a).shipmentId = a.shipmentId)
    (id : String) :
    (acts.map g).any (fun a => a.category == Category.ar && a.shipmentId == id) =
      acts.any (fun a => a.category == Category.ar && a.shipmentId == id) := by
  induction acts with
  | nil => rfl
  | cons a l ih =>
    simp only [List.map_cons, List.any_cons, ih, (hg a).1, (hg a).2]

theorem schedAP_kinds (acts : List Activity) (now : Nat) (sh : Shipment)
    (i : Nat) (id : String) :
    ∀ u ∈ scheduledAP acts now sh i,
      isChainFor id u = (sh.id == id) ∧ isAPFor id u = (sh.id == id) ∧
        isARFor id u = false ∧ stepShapeOK u = true := by
  intro u hu
  obtain ⟨_, step, hstep, hactu, _⟩ := scheduledAP_mem _ _ _ _ _ hu
  have hwf := List.all_eq_true.mp (createAPSteps_wf sh acts) step hstep
  obtain ⟨h1, _⟩ := (Bool.and_eq_true _ _).mp hwf
  obtain ⟨ft, tr, act⟩ := u
  cases hactu
  exact ⟨rfl, rfl, rfl, h1⟩

theorem schedAR_kinds (acts : List Activity) (now : Nat) (sh : Shipment)
    (i : Nat) (id : String) :
    ∀ u ∈ scheduledAR acts now sh i,
      isChainFor id u = (sh.id == id) ∧ isARFor id u = (sh.id == id) ∧
        isAPFor id u = false ∧ stepShapeOK u = true := by
  intro u hu
  obtain ⟨_, step, _, hactu, _⟩ := scheduledAR_mem _ _ _ _ _ hu
  obtain ⟨ft, tr, act⟩ := u
  cases hactu
  exact ⟨rfl, rfl, rfl, rfl⟩

theorem count_preserved (sT base adds : List Timer) (t : Timer)
    (hcnt : ∀ p : Timer → Bool,
      sT.countP p = base.countP p + (if p t then 1 else 0))
    (hlen : adds.length ≤ 1) (id : String)
    (hlift : ∀ u ∈ adds, isChainFor id u = true → isChainFor id t = true)
    (h4 : sT.countP (fun u => isChainFor id u) ≤ 1) :
    (base ++ adds).countP (fun u => isChainFor id u) ≤ 1 ∧
    (sT.countP (fun u => isChainFor id u) = 0 →
      (base ++ adds).countP (fun u => isChainFor id u) = 0) := by
  rw [List.countP_append]
  have hc := hcnt (fun u => isChainFor id u)
  have haddle := List.countP_le_length
    (p := fun u => isChainFor id u) (l := adds)
  by_cases hpos : 0 < adds.countP (fun u => isChainFor id u)
  · obtain ⟨u, hu, hcu⟩ := List.countP_pos_iff.mp hpos
    have hft := hlift u hu (by simpa using hcu)
    rw [if_pos hft] at hc
    exact ⟨by omega, fun h0 => by omega⟩
  · have h0 : adds.countP (fun u => isChainFor id u) = 0 := by omega
    by_cases hft : isChainFor id t = true
    · rw [if_pos hft] at hc
      exact ⟨by omega, fun hs0 => by omega⟩
    · rw [if_neg hft] at hc
      exact ⟨by omega, fun hs0 => by omega⟩

/-- Master preservation lemma for callbacks that do not touch the shipment
list, the activity log, or the completed set: the kickoff and handoff
scheduling callbacks and the two phase timers. -/
theorem inv_of_unchangedShips (s X : DashState) (t : Timer)
    (l1 l2 adds : List Timer)
    (hinv : inv s) (hl : s.timers = l1 ++ t :: l2)
    (hXt : X.timers = (l1 ++ l2) ++ adds)
    (hXs : X.shipments = s.shipments)
    (hXa : X.activities = s.activities)
    (hXc : X.completedAPShipments = s.completedAPShipments)
    (hlen : adds.length ≤ 1)
    (hshape : ∀ u ∈ adds, stepShapeOK u = true)
    (hchainlift : ∀ id u, u ∈ adds → isChainFor id u = true →
      isChainFor id t = true)
    (hARlift : ∀ id u, u ∈ adds → isARFor id u = true → isARFor id t = true)
    (hAPlift : ∀ id u, u ∈ adds → isAPFor id u = true → isAPFor id t = true) :
    inv X := by
  obtain ⟨hShips, hShape⟩ := hinv
  have htmem : t ∈ s.timers := by
    rw [hl]; exact List.mem_append_right _ (List.mem_cons_self _ _)
  have hbase : ∀ u ∈ l1 ++ l2, u ∈ s.timers := by
    intro u hu
    rw [hl]
    rcases List.mem_append.mp hu with h1 | h1
    · exact List.mem_append_left _ h1
    · exact List.mem_append_right _ (List.mem_cons_of_mem _ h1)
  have hcnt : ∀ p : Timer → Bool,
      s.timers.countP p = (l1 ++ l2).countP p + (if p t then 1 else 0) := by
    intro p
    rw [hl]
    exact countP_decomp l1 l2 t p
  constructor
  · intro sh hsh
    rw [hXs] at hsh
    obtain ⟨h1, h2, h3, h4, h5⟩ := hShips sh hsh
    have hcc := count_preserved s.timers (l1 ++ l2) adds t hcnt hlen sh.id
      (fun u hu => hchainlift sh.id u hu) h4
    refine ⟨?_, ?_, ?_, ?_, ?_⟩
    · intro hc
      rw [hXc] at hc
      exact h1 hc
    · intro hor
      rw [hXc]
      apply h2
      rcases hor with ⟨u, hu, har⟩ | har
      · rw [hXt] at hu
        rcases List.mem_append.mp hu with hb | hs2
        · exact Or.inl ⟨u, hbase u hb, har⟩
        · exact Or.inl ⟨t, htmem, hARlift sh.id u hs2 har⟩
      · right
        have heq : hasARActivity X sh.id = hasARActivity s sh.id := by
          unfold hasARActivity
          rw [hXa]
        rw [heq] at har
        exact har
    · intro ⟨u, hu, hap⟩
      rw [hXc]
      apply h3
      rw [hXt] at hu
      rcases List.mem_append.mp hu with hb | hs2
      · exact ⟨u, hbase u hb, hap⟩
      · exact ⟨t, htmem, hAPlift sh.id u hs2 hap⟩
    · unfold chainCount
      rw [hXt]
      exact hcc.1
    · intro hpa
      unfold chainCount
      rw [hXt]
      exact hcc.2 (h5 hpa)
  · intro u hu
    rw [hXt] at hu
    rcases List.mem_append.mp hu with hb | hs2
    · exact hShape u (hbase u hb)
    · exact hshape u hs2

/-- Core preservation lemma for a gated step firing: the fired chain timer
is consumed, nothing is scheduled, one activity is prepended, and the fired
shipment is marked input_required with a pending action. -/
theorem inv_core_gated (s X : DashState) (t : Timer) (l1 l2 : List Timer)
    (sh0 : Shipment) (f : Shipment → Shipment)
    (hinv : inv s) (hl : s.timers = l1 ++ t :: l2)
    (hfiredChain : ∀ id, isChainFor id t = (sh0.id == id))
    (hXt : X.timers = l1 ++ l2)
    (hXs : X.shipments = updateShipment s.shipments sh0.id f)
    (hXc : X.completedAPShipments = s.completedAPShipments)
    (hfid : ∀ sh, (f sh).id = sh.id)
    (hARact : ∀ id, hasARActivity X id = true →
      (∃ u ∈ s.timers, isARFor id u = true) ∨ hasARActivity s id = true)
    (hapStatus : ∀ sh ∈ s.shipments, sh.id = sh0.id →
      sh.id ∈ s.completedAPShipments → (f sh).apStatus = APStatus.audit_pass) :
    inv X := by
  obtain ⟨hShips, hShape⟩ := hinv
  have htmem : t ∈ s.timers := by
    rw [hl]; exact List.mem_append_right _ (List.mem_cons_self _ _)
  have hbase : ∀ u ∈ l1 ++ l2, u ∈ s.timers := by
    intro u hu
    rw [hl]
    rcases List.mem_append.mp hu with h1 | h1
    · exact List.mem_append_left _ h1
    · exact List.mem_append_right _ (List.mem_cons_of_mem _ h1)
  have hcnt : ∀ p : Timer → Bool,
      s.timers.countP p = (l1 ++ l2).countP p + (if p t then 1 else 0) := by
    intro p
    rw [hl]
    exact countP_decomp l1 l2 t p
  constructor
  · intro sh' hsh'
    rw [hXs] at hsh'
    obtain ⟨sh, hshmem, hcase⟩ := mem_updateShipment _ _ _ sh' hsh'
    obtain ⟨h1, h2, h3, h4, h5⟩ := hShips sh hshmem
    unfold chainCount at h4 h5
    have hc0 := hcnt (fun u => isChainFor sh.id u)
    have hid' : sh'.id = sh.id := by
      rcases hcase with ⟨_, rfl⟩ | ⟨_, rfl⟩
      · exact hfid sh
      · rfl
    have hbound : (l1 ++ l2).countP (fun u => isChainFor sh.id u) ≤ 1 := by
      by_cases hft : isChainFor sh.id t = true
      · rw [if_pos hft] at hc0; omega
      · rw [if_neg hft] at hc0; omega
    refine ⟨?_, ?_, ?_, ?_, ?_⟩
    · intro hc
      rw [hXc, hid'] at hc
      rcases hcase with ⟨hmid, rfl⟩ | ⟨_, rfl⟩
      · exact hapStatus sh hshmem hmid hc
      · exact h1 hc
    · intro hor
      rw [hXc, hid']
      apply h2
      rcases hor with ⟨u, hu, har⟩ | har
      · rw [hXt] at hu
        rw [hid'] at har
        exact Or.inl ⟨u, hbase u hu, har⟩
      · rw [hid'] at har
        rcases hARact sh.id har with hw | hold
        · exact Or.inl hw
        · exact Or.inr hold
    · intro ⟨u, hu, hap⟩
      rw [hXc, hid']
      rw [hXt] at hu
      rw [hid'] at hap
      exact h3 ⟨u, hbase u hu, hap⟩
    · unfold chainCount
      rw [hXt, hid']
      exact hbound
    · rcases hcase with ⟨hmid, rfl⟩ | ⟨hmid, rfl⟩
      · intro _
        unfold chainCount
        rw [hXt, hid']
        have hft : isChainFor sh.id t = true := by
          rw [hfiredChain, hmid]
          simp
        rw [if_pos hft] at hc0
        omega
      · intro hpa
        unfold chainCount
        rw [hXt, hid']
        have h50 := h5 hpa
        by_cases hft : isChainFor sh'.id t = true
        · rw [if_pos hft] at hc0; omega
        · rw [if_neg hft] at hc0; omega
  · intro u hu
    rw [hXt] at hu
    exact hShape u (hbase u hu)

/-- Core preservation lemma for a normal (non-gated, non-audit) step
firing: the fired chain timer is consumed, at most one follow-up chain
timer for the same shipment is scheduled, one activity is prepended, and
only the fired shipment's status fields change. -/
theorem inv_core_step (s X : DashState) (t : Timer) (l1 l2 adds : List Timer)
    (sh0 : Shipment) (f : Shipment → Shipment)
    (hinv : inv s) (hl : s.timers = l1 ++ t :: l2)
    (hfiredChain : ∀ id, isChainFor id t = (sh0.id == id))
    (hXt : X.timers = (l1 ++ l2) ++ adds)
    (hXs : X.shipments = updateShipment s.shipments sh0.id f)
    (hXc : X.completedAPShipments = s.completedAPShipments)
    (hfid : ∀ sh, (f sh).id = sh.id)
    (hfpa : ∀ sh, (f sh).pendingAction = sh.pendingAction)
    (hlen : adds.length ≤ 1)
    (haddchain : ∀ id u, u ∈ adds → isChainFor id u = (sh0.id == id))
    (haddshape : ∀ u ∈ adds, stepShapeOK u = true)
    (haddAR : ∀ id u, u ∈ adds → isARFor id u = true →
      ∃ v ∈ s.timers, isARFor id v = true)
    (haddAP : ∀ id u, u ∈ adds → isAPFor id u = true →
      ∃ v ∈ s.timers, isAPFor id v = true)
    (hARact : ∀ id, hasARActivity X id = true →
      (∃ u ∈ s.timers, isARFor id u = true) ∨ hasARActivity s id = true)
    (hapStatus : ∀ sh ∈ s.shipments, sh.id = sh0.id →
      sh.id ∈ s.completedAPShipments → (f sh).apStatus = APStatus.audit_pass) :
    inv X := by
  obtain ⟨hShips, hShape⟩ := hinv
  have htmem : t ∈ s.timers := by
    rw [hl]; exact List.mem_append_right _ (List.mem_cons_self _ _)
  have hbase : ∀ u ∈ l1 ++ l2, u ∈ s.timers := by
    intro u hu
    rw [hl]
    rcases List.mem_append.mp hu with h1 | h1
    · exact List.mem_append_left _ h1
    · exact List.mem_append_right _ (List.mem_cons_of_mem _ h1)
  have hcnt : ∀ p : Timer → Bool,
      s.timers.countP p = (l1 ++ l2).countP p + (if p t then 1 else 0) := by
    intro p
    rw [hl]
    exact countP_decomp l1 l2 t p
  constructor
  · intro sh' hsh'
    rw [hXs] at hsh'
    obtain ⟨sh, hshmem, hcase⟩ := mem_updateShipment _ _ _ sh' hsh'
    obtain ⟨h1, h2, h3, h4, h5⟩ := hShips sh hshmem
    unfold chainCount at h4 h5
    have hc0 := hcnt (fun u => isChainFor sh.id u)
    have hid' : sh'.id = sh.id := by
      rcases hcase with ⟨_, rfl⟩ | ⟨_, rfl⟩
      · exact hfid sh
      · rfl
    have hcc := count_preserved s.timers (l1 ++ l2) adds t hcnt hlen sh.id
      (fun u hu hcu => by
        rw [hfiredChain]
        rw [haddchain sh.id u hu] at hcu
        exact hcu) h4
    refine ⟨?_, ?_, ?_, ?_, ?_⟩
    · intro hc
      rw [hXc, hid'] at hc
      rcases hcase with ⟨hmid, rfl⟩ | ⟨_, rfl⟩
      · exact hapStatus sh hshmem hmid hc
      · exact h1 hc
    · intro hor
      rw [hXc, hid']
      apply h2
      rcases hor with ⟨u, hu, har⟩ | har
      · rw [hXt] at hu
        rw [hid'] at har
        rcases List.mem_append.mp hu with hb | ha
        · exact Or.inl ⟨u, hbase u hb, har⟩
        · exact Or.inl (haddAR sh.id u ha har)
      · rw [hid'] at har
        rcases hARact sh.id har with hw | hold
        · exact Or.inl hw
        · exact Or.inr hold
    · intro ⟨u, hu, hap⟩
      rw [hXc, hid']
      rw [hXt] at hu
      rw [hid'] at hap
      rcases List.mem_append.mp hu with hb | ha
      · exact h3 ⟨u, hbase u hb, hap⟩
      · exact h3 (haddAP sh.id u ha hap)
    · unfold chainCount
      rw [hXt, hid']
      exact hcc.1
    · rcases hcase with ⟨hmid, rfl⟩ | ⟨hmid, rfl⟩
      · intro hpa
        rw [hfpa] at hpa
        have h50 := h5 hpa
        have hft : isChainFor sh.id t = true := by
          rw [hfiredChain, hmid]
          simp
        rw [if_pos hft] at hc0
        omega
      · intro hpa
        have h50 := h5 hpa
        unfold chainCount
        rw [hXt, hid']
        exact hcc.2 h50
  · intro u hu
    rw [hXt] at hu
    rcases List.mem_append.mp hu with hb | ha
    · exact hShape u (hbase u hb)
    · exact haddshape u ha

/-- Core preservation lemma for the audit_complete firing: the shipment's
AP status becomes audit_pass, its id is recorded complete, and the single
scheduled follow-up is the AR handoff for the same shipment. -/
theorem inv_core_audit (s X : DashState) (t hT : Timer) (l1 l2 : List Timer)
    (sh0 : Shipment) (f : Shipment → Shipment)
    (hinv : inv s) (hl : s.timers = l1 ++ t :: l2)
    (hfiredChain : ∀ id, isChainFor id t = (sh0.id == id))
    (hXt : X.timers = (l1 ++ l2) ++ [hT])
    (hhT : ∀ id, isChainFor id hT = (sh0.id == id) ∧
      isARFor id hT = (sh0.id == id) ∧ isAPFor id hT = false ∧
      stepShapeOK hT = true)
    (hXs : X.shipments = updateShipment s.shipments sh0.id f)
    (hXc : X.completedAPShipments =
      addCompleted s.completedAPShipments sh0.id)
    (hfid : ∀ sh, (f sh).id = sh.id)
    (hfpa : ∀ sh, (f sh).pendingAction = sh.pendingAction)
    (hARact : ∀ id, hasARActivity X id = true →
      (∃ u ∈ s.timers, isARFor id u = true) ∨ hasARActivity s id = true)
    (hapNew : ∀ sh, sh.id = sh0.id → (f sh).apStatus = APStatus.audit_pass) :
    inv X := by
  obtain ⟨hShips, hShape⟩ := hinv
  have htmem : t ∈ s.timers := by
    rw [hl]; exact List.mem_append_right _ (List.mem_cons_self _ _)
  have hbase : ∀ u ∈ l1 ++ l2, u ∈ s.timers := by
    intro u hu
    rw [hl]
    rcases List.mem_append.mp hu with h1 | h1
    · exact List.mem_append_left _ h1
    · exact List.mem_append_right _ (List.mem_cons_of_mem _ h1)
  have hcnt : ∀ p : Timer → Bool,
      s.timers.countP p = (l1 ++ l2).countP p + (if p t then 1 else 0) := by
    intro p
    rw [hl]
    exact countP_decomp l1 l2 t p
  constructor
  · intro sh' hsh'
    rw [hXs] at hsh'
    obtain ⟨sh, hshmem, hcase⟩ := mem_updateShipment _ _ _ sh' hsh'
    obtain ⟨h1, h2, h3, h4, h5⟩ := hShips sh hshmem
    unfold chainCount at h4 h5
    have hc0 := hcnt (fun u => isChainFor sh.id u)
    have hid' : sh'.id = sh.id := by
      rcases hcase with ⟨_, rfl⟩ | ⟨_, rfl⟩
      · exact hfid sh
      · rfl
    have hcc := count_preserved s.timers (l1 ++ l2) [hT] t hcnt (by simp) sh.id
      (fun u hu hcu => by
        rw [hfiredChain]
        rcases List.mem_singleton.mp hu with rfl
        rw [(hhT sh.id).1] at hcu
        exact hcu) h4
    refine ⟨?_, ?_, ?_, ?_, ?_⟩
    · intro hc
      rw [hXc, hid'] at hc
      rcases hcase with ⟨hmid, rfl⟩ | ⟨hmid, rfl⟩
      · exact hapNew sh hmid
      · rcases mem_addCompleted _ _ _ hc with hold | heq
        · exact h1 hold
        · exact absurd heq hmid
    · intro hor
      rw [hXc, hid']
      rcases hor with ⟨u, hu, har⟩ | har
      · rw [hXt] at hu
        rw [hid'] at har
        rcases List.mem_append.mp hu with hb | ha
        · exact mem_addCompleted_of_mem _ _ _ (h2 (Or.inl ⟨u, hbase u hb, har⟩))
        · rcases List.mem_singleton.mp ha with rfl
          rw [(hhT sh.id).2.1] at har
          have : sh.id = sh0.id := (beq_iff_eq.mp har).symm
          rw [this]
          exact mem_addCompleted_self _ _
      · rw [hid'] at har
        rcases hARact sh.id har with ⟨u, hu, hw⟩ | hold
        · exact mem_addCompleted_of_mem _ _ _ (h2 (Or.inl ⟨u, hu, hw⟩))
        · exact mem_addCompleted_of_mem _ _ _ (h2 (Or.inr hold))
    · intro ⟨u, hu, hap⟩
      rw [hXc, hid']
      rw [hXt] at hu
      rw [hid'] at hap
      rcases List.mem_append.mp hu with hb | ha
      · intro hmem'
        rcases mem_addCompleted _ _ _ hmem' with hold | heq
        · exact h3 ⟨u, hbase u hb, hap⟩ hold
        · -- the shipment just completed still has a pending AP timer:
          -- impossible, the fired timer was the unique chain timer
          have hchu : isChainFor sh.id u = true := by
            rw [chain_eq_or]
            rw [hap]
            rfl
          have hpos : 0 < (l1 ++ l2).countP (fun v => isChainFor sh.id v) :=
            List.countP_pos_iff.mpr ⟨u, hb, hchu⟩
          have hft : isChainFor sh.id t = true := by
            rw [hfiredChain, heq]
            simp
          rw [if_pos hft] at hc0
          omega
      · rcases List.mem_singleton.mp ha with rfl
        rw [(hhT sh.id).2.2.1] at hap
        exact absurd hap (by simp)
    · unfold chainCount
      rw [hXt, hid', List.countP_append]
      have haddle := List.countP_le_length
        (p := fun u => isChainFor sh.id u) (l := [hT])
      by_cases hc1 : isChainFor sh.id hT = true
      · have hft : isChainFor sh.id t = true := by
          rw [hfiredChain]
          rw [(hhT sh.id).1] at hc1
          exact hc1
        rw [if_pos hft] at hc0
        simp only [List.length_singleton] at haddle
        omega
      · have hz : ([hT] : List Timer).countP (fun u => isChainFor sh.id u) = 0 := by
          rw [List.countP_eq_zero]
          intro u hu
          rcases List.mem_singleton.mp hu with rfl
          simpa using hc1
        by_cases hft : isChainFor sh.id t = true
        · rw [if_pos hft] at hc0
          omega
        · rw [if_neg hft] at hc0
          omega
    · rcases hcase with ⟨hmid, rfl⟩ | ⟨hmid, rfl⟩
      · intro hpa
        rw [hfpa] at hpa
        have h50 := h5 hpa
        have hft : isChainFor sh.id t = true := by
          rw [hfiredChain, hmid]
          simp
        rw [if_pos hft] at hc0
        omega
      · intro hpa
        have h50 := h5 hpa
        unfold chainCount
        rw [hXt, hid', List.countP_append]
        have hzt : ∀ u ∈ s.timers, ¬ isChainFor sh'.id u = true :=
          List.countP_eq_zero.mp h50
        have hftf : ¬ isChainFor sh'.id t = true := hzt t htmem
        have hz : ([hT] : List Timer).countP
            (fun u => isChainFor sh'.id u) = 0 := by
          rw [List.countP_eq_zero]
          intro u hu
          rcases List.mem_singleton.mp hu with rfl
          intro hcu
          apply hftf
          rw [hfiredChain]
          rw [(hhT sh'.id).1] at hcu
          exact hcu
        rw [if_neg hftf] at hc0
        omega
  · intro u hu
    rw [hXt] at hu
    rcases List.mem_append.mp hu with hb | ha
    · exact hShape u (hbase u hb)
    · rcases List.mem_singleton.mp ha with rfl
      exact (hhT "").2.2.2

/-! ### Classifying a timer from its action -/

theorem chainFor_fireAP (t : Timer) (sh : Shipment) (i : Nat) (step : SimStep)
    (h : t.action = TimerAction.fireAP sh i step) (id : String) :
    isChainFor id t = (sh.id == id) ∧ isAPFor id t = (sh.id == id) ∧
      isARFor id t = false := by
  obtain ⟨fa, tr, act⟩ := t
  cases h
  exact ⟨rfl, rfl, rfl⟩

theorem chainFor_fireAR (t : Timer) (sh : Shipment) (i : Nat) (step : SimStep)
    (h : t.action = TimerAction.fireAR sh i step) (id : String) :
    isChainFor id t = (sh.id == id) ∧ isARFor id t = (sh.id == id) ∧
      isAPFor id t = false := by
  obtain ⟨fa, tr, act⟩ := t
  cases h
  exact ⟨rfl, rfl, rfl⟩

theorem chainFor_startAP (t : Timer) (sh : Shipment) (j : Nat)
    (h : t.action = TimerAction.startAP sh j) (id : String) :
    isChainFor id t = (sh.id == id) ∧ isAPFor id t = (sh.id == id) ∧
      isARFor id t = false := by
  obtain ⟨fa, tr, act⟩ := t
  cases h
  exact ⟨rfl, rfl, rfl⟩

theorem chainFor_handoff (t : Timer) (sh : Shipment)
    (h : t.action = TimerAction.handoffAR sh) (id : String) :
    isChainFor id t = (sh.id == id) ∧ isARFor id t = (sh.id == id) ∧
      isAPFor id t = false := by
  obtain ⟨fa, tr, act⟩ := t
  cases h
  exact ⟨rfl, rfl, rfl⟩

theorem shape_fireAP (t : Timer) (sh : Shipment) (i : Nat) (step : SimStep)
    (h : t.action = TimerAction.fireAP sh i step)
    (hs : stepShapeOK t = true) :
    (step.type != ActivityType.audit_complete ||
      step.status == StepStatus.ap APStatus.audit_pass) = true := by
  obtain ⟨fa, tr, act⟩ := t
  cases h
  exact hs

/-- Dispatcher: firing an AP step callback from the dequeued state
preserves the invariant. -/
theorem inv_after_fireAP (s s' : DashState) (t : Timer) (l1 l2 : List Timer)
    (shipment : Shipment) (i : Nat) (step : SimStep)
    (hinv : inv s) (hl : s.timers = l1 ++ t :: l2)
    (hta : t.action = TimerAction.fireAP shipment i step)
    (hs't : s'.timers = l1 ++ l2)
    (hs's : s'.shipments = s.shipments)
    (hs'a : s'.activities = s.activities)
    (hs'c : s'.completedAPShipments = s.completedAPShipments) :
    inv (fireAPStep s' shipment i step) := by
  have htmem : t ∈ s.timers := by
    rw [hl]; exact List.mem_append_right _ (List.mem_cons_self _ _)
  have hshape0 : stepShapeOK t = true := hinv.2 t htmem
  unfold fireAPStep
  obtain ⟨delay, ty, title, desc, status, doc, reqAp, pat, dc⟩ := step
  cases reqAp
  · -- normal step
    simp only [Bool.false_eq_true, if_false]
    split
    case isTrue haud =>
      -- audit_complete: record completion and schedule the handoff
      have hst : status = StepStatus.ap APStatus.audit_pass := by
        have h2 := shape_fireAP _ _ _ _ hta hshape0
        simp only [bne, haud, Bool.not_true, Bool.false_or, beq_iff_eq] at h2
        exact h2
      refine inv_core_audit s _ t
        { fireAt := s'.now + 2000, tracked := false
        , action := TimerAction.handoffAR shipment }
        l1 l2 shipment
        (fun sh => { sh with apStatus := asAPStatus status sh.apStatus })
        hinv hl ?_ ?_ ?_ ?_ ?_ ?_ ?_ ?_ ?_
      · exact fun id => (chainFor_fireAP _ _ _ _ hta id).1
      · dsimp only
        rw [hs't]
      · intro id
        exact ⟨rfl, rfl, rfl, rfl⟩
      · dsimp only
        rw [hs's]
      · dsimp only
        rw [hs'c]
      · intro sh
        rfl
      · intro sh
        rfl
      · intro id har
        right
        unfold hasARActivity at har
        dsimp only at har
        rw [hs'a] at har
        exact har
      · intro sh _
        dsimp only
        rw [hst]
        rfl
    case isFalse haud =>
      -- schedule the next AP step
      refine inv_core_step s _ t l1 l2
        (scheduledAP s'.activities s'.now shipment (i + 1)) shipment
        (fun sh => { sh with apStatus := asAPStatus status sh.apStatus })
        hinv hl ?_ ?_ ?_ ?_ ?_ ?_ ?_ ?_ ?_ ?_ ?_ ?_ ?_
      · exact fun id => (chainFor_fireAP _ _ _ _ hta id).1
      · rw [runAP_timers]
        dsimp only
        rw [hs't]
      · rw [runAP_shipments]
        dsimp only
        rw [hs's]
      · rw [runAP_completed]
        dsimp only
        rw [hs'c]
      · intro sh
        rfl
      · intro sh
        rfl
      · exact scheduledAP_length _ _ _ _
      · intro id u hu
        exact (schedAP_kinds _ _ _ _ id u hu).1
      · intro u hu
        exact (schedAP_kinds _ _ _ _ "" u hu).2.2.2
      · intro id u hu har
        rw [(schedAP_kinds _ _ _ _ id u hu).2.2.1] at har
        simp at har
      · intro id u hu hap
        rw [(schedAP_kinds _ _ _ _ id u hu).2.1] at hap
        refine ⟨t, htmem, ?_⟩
        rw [(chainFor_fireAP _ _ _ _ hta id).2.1]
        exact hap
      · intro id har
        right
        unfold hasARActivity at har
        rw [runAP_activities] at har
        dsimp only at har
        rw [hs'a] at har
        exact har
      · intro sh hsh hid hc
        refine absurd hc ((hinv.1 sh hsh).2.2.1 ⟨t, htmem, ?_⟩)
        rw [(chainFor_fireAP _ _ _ _ hta sh.id).2.1, hid]
        simp
  · -- gated step: halt with a pending draft
    rw [if_pos rfl]
    cases dc <;>
    · dsimp only
      refine inv_core_gated s _ t l1 l2 shipment
        (fun sh =>
          { sh with apStatus := APStatus.input_required
                  , pendingAction := some (pat.getD
                      PendingActionType.approve_email) })
        hinv hl ?_ ?_ ?_ ?_ ?_ ?_ ?_
      · exact fun id => (chainFor_fireAP _ _ _ _ hta id).1
      · dsimp only
        rw [hs't]
      · dsimp only
        rw [hs's]
      · dsimp only
        rw [hs'c]
      · intro sh
        rfl
      · intro id har
        right
        unfold hasARActivity at har
        dsimp only at har
        rw [hs'a] at har
        exact har
      · intro sh hsh hid hc
        refine absurd hc ((hinv.1 sh hsh).2.2.1 ⟨t, htmem, ?_⟩)
        rw [(chainFor_fireAP _ _ _ _ hta sh.id).2.1, hid]
        simp

/-- Dispatcher: firing an AR step callback from the dequeued state
preserves the invariant. -/
theorem inv_after_fireAR (s s' : DashState) (t : Timer) (l1 l2 : List Timer)
    (shipment : Shipment) (i : Nat) (step : SimStep)
    (hinv : inv s) (hl : s.timers = l1 ++ t :: l2)
    (hta : t.action = TimerAction.fireAR shipment i step)
    (hs't : s'.timers = l1 ++ l2)
    (hs's : s'.shipments = s.shipments)
    (hs'a : s'.activities = s.activities)
    (hs'c : s'.completedAPShipments = s.completedAPShipments) :
    inv (fireARStep s' shipment i step) := by
  have htmem : t ∈ s.timers := by
    rw [hl]; exact List.mem_append_right _ (List.mem_cons_self _ _)
  unfold fireARStep
  obtain ⟨delay, ty, title, desc, status, doc, reqAp, pat, dc⟩ := step
  have hgated : ∀ (X : DashState) (a : Activity) (g : Shipment → Shipment),
      X.timers = s'.timers →
      X.shipments = updateShipment s'.shipments shipment.id g →
      X.completedAPShipments = s'.completedAPShipments →
      X.activities = a :: s'.activities →
      a.shipmentId = shipment.id →
      (∀ sh, (g sh).id = sh.id) →
      (∀ sh, (g sh).apStatus = sh.apStatus) →
      inv X := by
    intro X a g hXt hXs hXc hXa haid hgid hgap
    refine inv_core_gated s X t l1 l2 shipment g hinv hl ?_ ?_ ?_ ?_ ?_ ?_ ?_
    · exact fun id => (chainFor_fireAR _ _ _ _ hta id).1
    · rw [hXt, hs't]
    · rw [hXs, hs's]
    · rw [hXc, hs'c]
    · exact hgid
    · intro id har
      unfold hasARActivity at har
      rw [hXa, hs'a] at har
      simp only [List.any_cons, Bool.or_eq_true, Bool.and_eq_true,
        beq_iff_eq] at har
      rcases har with ⟨_, hid2⟩ | htail
      · refine Or.inl ⟨t, htmem, ?_⟩
        rw [(chainFor_fireAR _ _ _ _ hta id).2.1, ← hid2, haid]
        simp
      · exact Or.inr htail
    · intro sh hsh _ hc
      rw [hgap]
      exact (hinv.1 sh hsh).1 hc
  have hnormal : ∀ (X : DashState) (a : Activity) (g : Shipment → Shipment),
      X = runARForShipment s'.activities
        { s' with activities := a :: s'.activities
                , shipments := updateShipment s'.shipments shipment.id g }
        shipment (i + 1) →
      a.shipmentId = shipment.id →
      (∀ sh, (g sh).id = sh.id) →
      (∀ sh, (g sh).apStatus = sh.apStatus) →
      (∀ sh, (g sh).pendingAction = sh.pendingAction) →
      inv X := by
    intro X a g hX haid hgid hgap hgpa
    subst hX
    refine inv_core_step s _ t l1 l2
      (scheduledAR s'.activities s'.now shipment (i + 1)) shipment g
      hinv hl ?_ ?_ ?_ ?_ ?_ ?_ ?_ ?_ ?_ ?_ ?_ ?_ ?_
    · exact fun id => (chainFor_fireAR _ _ _ _ hta id).1
    · rw [runAR_timers]
      dsimp only
      rw [hs't]
    · rw [runAR_shipments]
      dsimp only
      rw [hs's]
    · rw [runAR_completed]
      dsimp only
      rw [hs'c]
    · exact hgid
    · exact hgpa
    · exact scheduledAR_length _ _ _ _
    · intro id u hu
      exact (schedAR_kinds _ _ _ _ id u hu).1
    · intro u hu
      exact (schedAR_kinds _ _ _ _ "" u hu).2.2.2
    · intro id u hu har
      rw [(schedAR_kinds _ _ _ _ id u hu).2.1] at har
      refine ⟨t, htmem, ?_⟩
      rw [(chainFor_fireAR _ _ _ _ hta id).2.1]
      exact har
    · intro id u hu hap
      rw [(schedAR_kinds _ _ _ _ id u hu).2.2.1] at hap
      simp at hap
    · intro id har
      unfold hasARActivity at har
      rw [runAR_activities] at har
      dsimp only at har
      rw [hs'a] at har
      simp only [List.any_cons, Bool.or_eq_true, Bool.and_eq_true,
        beq_iff_eq] at har
      rcases har with ⟨_, hid2⟩ | htail
      · refine Or.inl ⟨t, htmem, ?_⟩
        rw [(chainFor_fireAR _ _ _ _ hta id).2.1, ← hid2, haid]
        simp
      · exact Or.inr htail
    · intro sh hsh _ hc
      rw [hgap]
      exact (hinv.1 sh hsh).1 hc
  cases reqAp <;> cases dc
  · exact hnormal _ _ _ rfl rfl (fun sh => rfl) (fun sh => rfl) (fun sh => rfl)
  · exact hnormal _ _ _ rfl rfl (fun sh => rfl) (fun sh => rfl) (fun sh => rfl)
  · exact hnormal _ _ _ rfl rfl (fun sh => rfl) (fun sh => rfl) (fun sh => rfl)
  · exact hgated _ _ _ rfl rfl rfl rfl rfl (fun sh => rfl) (fun sh => rfl)

/-- Firing the next pending timer preserves the invariant. -/
theorem inv_advance (s s2 : DashState) (hinv : inv s)
    (h : advanceOnce s = some s2) : inv s2 := by
  unfold advanceOnce at h
  rcases he : extractMin s.timers with _ | ⟨t, rest⟩ <;> rw [he] at h
  · simp at h
  · dsimp only at h
    injection h with h
    subst h
    obtain ⟨l1, l2, hldec, hrest⟩ := extractMin_decomp s.timers t rest he
    subst hrest
    cases hact : t.action with
    | startAP sh j =>
      dsimp only [applyTimerAction]
      refine inv_of_unchangedShips s _ t l1 l2
        (scheduledAP s.activities t.fireAt sh j) hinv hldec
        ?_ ?_ ?_ ?_ ?_ ?_ ?_ ?_ ?_
      · rw [runAP_timers]
      · rw [runAP_shipments]
      · rw [runAP_activities]
      · rw [runAP_completed]
      · exact scheduledAP_length _ _ _ _
      · intro u hu
        exact (schedAP_kinds _ _ _ _ "" u hu).2.2.2
      · intro id u hu hc
        rw [(schedAP_kinds _ _ _ _ id u hu).1] at hc
        rw [(chainFor_startAP _ _ _ hact id).1]
        exact hc
      · intro id u hu har
        rw [(schedAP_kinds _ _ _ _ id u hu).2.2.1] at har
        simp at har
      · intro id u hu hap
        rw [(schedAP_kinds _ _ _ _ id u hu).2.1] at hap
        rw [(chainFor_startAP _ _ _ hact id).2.1]
        exact hap
    | fireAP sh j st =>
      dsimp only [applyTimerAction]
      exact inv_after_fireAP s _ t l1 l2 sh j st hinv hldec hact rfl rfl rfl rfl
    | fireAR sh j st =>
      dsimp only [applyTimerAction]
      exact inv_after_fireAR s _ t l1 l2 sh j st hinv hldec hact rfl rfl rfl rfl
    | handoffAR sh =>
      dsimp only [applyTimerAction]
      refine inv_of_unchangedShips s _ t l1 l2
        (scheduledAR s.activities t.fireAt sh 0) hinv hldec
        ?_ ?_ ?_ ?_ ?_ ?_ ?_ ?_ ?_
      · rw [runAR_timers]
      · rw [runAR_shipments]
      · rw [runAR_activities]
      · rw [runAR_completed]
      · exact scheduledAR_length _ _ _ _
      · intro u hu
        exact (schedAR_kinds _ _ _ _ "" u hu).2.2.2
      · intro id u hu hc
        rw [(schedAR_kinds _ _ _ _ id u hu).1] at hc
        rw [(chainFor_handoff _ _ hact id).1]
        exact hc
      · intro id u hu har
        rw [(schedAR_kinds _ _ _ _ id u hu).2.1] at har
        rw [(chainFor_handoff _ _ hact id).2.1]
        exact har
      · intro id u hu hap
        rw [(schedAR_kinds _ _ _ _ id u hu).2.2.1] at hap
        simp at hap
    | setPhaseAR =>
      dsimp only [applyTimerAction]
      refine inv_of_unchangedShips s _ t l1 l2 [] hinv hldec
        ?_ rfl rfl rfl (by simp) ?_ ?_ ?_ ?_
      · exact (List.append_nil _).symm
      · intro u hu
        cases hu
      · intro id u hu
        cases hu
      · intro id u hu
        cases hu
      · intro id u hu
        cases hu
    | setComplete =>
      dsimp only [applyTimerAction]
      refine inv_of_unchangedShips s _ t l1 l2 [] hinv hldec
        ?_ rfl rfl rfl (by simp) ?_ ?_ ?_ ?_
      · exact (List.append_nil _).symm
      · intro u hu
        cases hu
      · intro id u hu
        cases hu
      · intro id u hu
        cases hu
      · intro id u hu
        cases hu

/-- Pausing (which only removes timers) preserves the invariant. -/
theorem inv_pause (s : DashState) (hinv : inv s) : inv (pauseSimulation s) := by
  obtain ⟨hShips, hShape⟩ := hinv
  have hsub : (pauseSimulation s).timers.Sublist s.timers := by
    show (s.timers.filter fun t => !t.tracked).Sublist s.timers
    exact List.filter_sublist _
  constructor
  · intro sh hsh
    obtain ⟨h1, h2, h3, h4, h5⟩ := hShips sh hsh
    refine ⟨h1, ?_, ?_, ?_, ?_⟩
    · intro hor
      apply h2
      rcases hor with ⟨u, hu, har⟩ | har
      · exact Or.inl ⟨u, hsub.subset hu, har⟩
      · exact Or.inr har
    · intro ⟨u, hu, hap⟩
      exact h3 ⟨u, hsub.subset hu, hap⟩
    · unfold chainCount at h4 ⊢
      exact le_trans (List.Sublist.countP_le _ hsub) h4
    · intro hpa
      have h50 := h5 hpa
      unfold chainCount at h50 ⊢
      have := List.Sublist.countP_le (fun u => isChainFor sh.id u) hsub
      omega
  · intro u hu
    exact hShape u (hsub.subset hu)

/-- Core preservation lemma for the approve action: the approved shipment
had no pending chain timer (it was halted on its pending action), its
marker is cleared, existing activities keep their category and shipment,
and at most one chain timer for it is scheduled, AR only if it is recorded
complete and AP only if it is not. -/
theorem inv_approve_core (s X : DashState) (id0 : String) (adds : List Timer)
    (hinv : inv s)
    (hg : ∃ shg ∈ s.shipments, shg.id = id0 ∧ shg.pendingAction.isSome = true)
    (hXt : X.timers = s.timers ++ adds)
    (hXs : X.shipments = updateShipment s.shipments id0
      (fun sh => { sh with pendingAction := none }))
    (hXa : ∀ id, hasARActivity X id = hasARActivity s id)
    (hXc : X.completedAPShipments = s.completedAPShipments)
    (hlen : adds.length ≤ 1)
    (haddchain : ∀ id u, u ∈ adds → isChainFor id u = (id0 == id))
    (haddshape : ∀ u ∈ adds, stepShapeOK u = true)
    (haddARcomp : ∀ id u, u ∈ adds → isARFor id u = true →
      id ∈ s.completedAPShipments)
    (haddAPcomp : ∀ id u, u ∈ adds → isAPFor id u = true →
      id ∉ s.completedAPShipments) :
    inv X := by
  obtain ⟨hShips, hShape⟩ := hinv
  obtain ⟨shg, hshg, hgid, hgpa⟩ := hg
  have hzero : s.timers.countP (fun u => isChainFor id0 u) = 0 := by
    have hz := (hShips shg hshg).2.2.2.2 hgpa
    unfold chainCount at hz
    rw [hgid] at hz
    exact hz
  have haddle := List.countP_le_length
    (p := fun u => isChainFor id0 u) (l := adds)
  have haddc : ∀ idq, idq ≠ id0 →
      adds.countP (fun u => isChainFor idq u) = 0 := by
    intro idq hne
    rw [List.countP_eq_zero]
    intro u hu hcu
    rw [haddchain idq u hu] at hcu
    exact hne (beq_iff_eq.mp hcu).symm
  constructor
  · intro sh' hsh'
    rw [hXs] at hsh'
    obtain ⟨sh, hshmem, hcase⟩ := mem_updateShipment _ _ _ sh' hsh'
    obtain ⟨h1, h2, h3, h4, h5⟩ := hShips sh hshmem
    unfold chainCount at h4
    have hid' : sh'.id = sh.id := by
      rcases hcase with ⟨_, rfl⟩ | ⟨_, rfl⟩ <;> rfl
    have hapeq : sh'.apStatus = sh.apStatus := by
      rcases hcase with ⟨_, rfl⟩ | ⟨_, rfl⟩ <;> rfl
    refine ⟨?_, ?_, ?_, ?_, ?_⟩
    · intro hc
      rw [hXc, hid'] at hc
      rw [hapeq]
      exact h1 hc
    · intro hor
      rw [hXc, hid']
      rcases hor with ⟨u, hu, har⟩ | har
      · rw [hXt] at hu
        rw [hid'] at har
        rcases List.mem_append.mp hu with hb | ha
        · exact h2 (Or.inl ⟨u, hb, har⟩)
        · exact haddARcomp sh.id u ha har
      · rw [hid', hXa] at har
        exact h2 (Or.inr har)
    · intro ⟨u, hu, hap⟩
      rw [hXc, hid']
      rw [hXt] at hu
      rw [hid'] at hap
      rcases List.mem_append.mp hu with hb | ha
      · exact h3 ⟨u, hb, hap⟩
      · exact haddAPcomp sh.id u ha hap
    · unfold chainCount
      rw [hXt, hid', List.countP_append]
      by_cases heq0 : sh.id = id0
      · rw [heq0]
        omega
      · have hz2 := haddc sh.id heq0
        omega
    · rcases hcase with ⟨hmid, rfl⟩ | ⟨hmid, rfl⟩
      · intro hpa
        simp at hpa
      · intro hpa
        have h50 := h5 hpa
        unfold chainCount at h50 ⊢
        rw [hXt, List.countP_append]
        have hz2 := haddc sh'.id hmid
        omega
  · intro u hu
    rw [hXt] at hu
    rcases List.mem_append.mp hu with hb | ha
    · exact hShape u hb
    · exact haddshape u ha

/-- The approve action preserves the invariant. -/
theorem inv_approve (s s2 : DashState) (id : String) (hinv : inv s)
    (h : stepEv s (Event.approve id) = some s2) : inv s2 := by
  dsimp only [stepEv] at h
  split at h
  case isFalse => simp at h
  case isTrue hgrd =>
    have hg : ∃ shg ∈ s.shipments,
        shg.id = id ∧ shg.pendingAction.isSome = true := by
      obtain ⟨shg, hmem, hp⟩ := List.any_eq_true.mp hgrd
      obtain ⟨hp1, hp2⟩ := (Bool.and_eq_true _ _).mp hp
      exact ⟨shg, hmem, beq_iff_eq.mp hp1, hp2⟩
    unfold handleApproveAction at h
    rcases hf : s.shipments.find? (fun sh => sh.id == id) with _ | shipment <;>
      rw [hf] at h <;> dsimp only at h
    · injection h with h
      subst h
      exact hinv
    · have hfp := List.find?_some hf
      have hsid : shipment.id = id := beq_iff_eq.mp hfp
      rcases hlk : lookupKey s.activeShipmentSteps id with _ | ci <;>
        rw [hlk] at h <;> dsimp only at h
      · simp at h
      · split at h
        case isTrue hin =>
          injection h with h
          subst h
          refine inv_approve_core s _ id
            (scheduledAR s.activities s.now shipment (ci + 1)) hinv hg
            ?_ ?_ ?_ ?_ ?_ ?_ ?_ ?_ ?_
          · rw [runAR_timers]
          · rw [runAR_shipments]
          · intro idq
            unfold hasARActivity
            rw [runAR_activities]
            dsimp only
            refine hasAR_map_flip s.activities _ ?_ idq
            intro a
            constructor <;> (split <;> rfl)
          · rw [runAR_completed]
          · exact scheduledAR_length _ _ _ _
          · intro idq u hu
            rw [(schedAR_kinds _ _ _ _ idq u hu).1, hsid]
          · intro u hu
            exact (schedAR_kinds _ _ _ _ "" u hu).2.2.2
          · intro idq u hu har
            rw [(schedAR_kinds _ _ _ _ idq u hu).2.1, hsid] at har
            rw [← beq_iff_eq.mp har]
            exact hin
          · intro idq u hu hap
            rw [(schedAR_kinds _ _ _ _ idq u hu).2.2.1] at hap
            simp at hap
        case isFalse hnin =>
          injection h with h
          subst h
          refine inv_approve_core s _ id
            (scheduledAP s.activities s.now shipment (ci + 1)) hinv hg
            ?_ ?_ ?_ ?_ ?_ ?_ ?_ ?_ ?_
          · rw [runAP_timers]
          · rw [runAP_shipments]
          · intro idq
            unfold hasARActivity
            rw [runAP_activities]
            dsimp only
            refine hasAR_map_flip s.activities _ ?_ idq
            intro a
            constructor <;> (split <;> rfl)
          · rw [runAP_completed]
          · exact scheduledAP_length _ _ _ _
          · intro idq u hu
            rw [(schedAP_kinds _ _ _ _ idq u hu).1, hsid]
          · intro u hu
            exact (schedAP_kinds _ _ _ _ "" u hu).2.2.2
          · intro idq u hu har
            rw [(schedAP_kinds _ _ _ _ idq u hu).2.2.1] at har
            simp at har
          · intro idq u hu hap
            rw [(schedAP_kinds _ _ _ _ idq u hu).2.1, hsid] at hap
            rw [← beq_iff_eq.mp hap]
            exact hnin

/-- The invariant holds in the auto-started state. -/
theorem inv_startState : inv startState := by
  constructor
  · intro sh hsh
    refine ⟨?_, ?_, ?_, ?_, ?_⟩ <;> revert hsh <;> revert sh <;> decide
  · intro u hu
    revert hu
    revert u
    decide

/-- The invariant is preserved along any run of safe events. -/
theorem inv_exec (evs : List Event) (s s2 : DashState)
    (hsafe : evs.all Event.safe = true) (hinv : inv s)
    (h : execEvents s evs = some s2) : inv s2 := by
  induction evs generalizing s with
  | nil =>
    unfold execEvents at h
    injection h with h
    subst h
    exact hinv
  | cons e evs ih =>
    unfold execEvents at h
    rcases hse : stepEv s e with _ | s1 <;> rw [hse] at h
    · simp at h
    · rw [Option.some_bind] at h
      simp only [List.all_cons, Bool.and_eq_true] at hsafe
      have hinv1 : inv s1 := by
        cases e with
        | advance => exact inv_advance s s1 hinv hse
        | pause =>
          dsimp only [stepEv] at hse
          split at hse
          · injection hse with hse
            subst hse
            exact inv_pause s hinv
          · simp at hse
        | resume => simp [Event.safe] at hsafe
        | start => simp [Event.safe] at hsafe
        | reset => simp [Event.safe] at hsafe
        | approve id => exact inv_approve s s1 id hinv hse
      exact ih s1 hsafe.2 hinv1 h

/-- C1 (corrected): AR playback for a shipment starts only via the 2000 ms
AP-to-AR handoff scheduled by the firing of its audit_complete AP step,
which sets the shipment's apStatus to the terminal audit_pass — so in any
run of timer firings, pauses, and approve actions from the auto-started
state, a shipment whose AR playback has begun (an AR activity is logged)
has apStatus audit_pass.  The restriction to those events is necessary:
the handoff timeout is not tracked in timeoutRefs, so reset/start cannot
clear it, and a reset inside its window lets AR playback begin against the
reseeded shipment whose apStatus is received (see the counterexample);
resume can also double-schedule a chain after an approve while paused. -/
theorem c1_apBeforeAR (evs : List Event) (s2 : DashState)
    (hsafe : evs.all Event.safe = true)
    (h : execEvents startState evs = some s2) :
    ∀ sh ∈ s2.shipments, hasARActivity s2 sh.id = true →
      sh.apStatus = APStatus.audit_pass := by
  intro sh hsh har
  have hinv2 := inv_exec evs startState s2 hsafe inv_startState h
  obtain ⟨h1, h2, _, _, _⟩ := hinv2.1 sh hsh
  exact h1 (h2 (Or.inr har))

/-- A happy-path run: the second shipment's document-request gate is
approved, then dispatch continues through its audit_complete and the
AP-to-AR handoff into AR playback. -/
def c1HappyEvents : List Event :=
  List.replicate 6 Event.advance ++ [Event.approve "SHP-002"] ++
    List.replicate 12 Event.advance

/-- The state reached by the happy-path run. -/
def c1Happy : DashState := (execEvents startState c1HappyEvents).getD dashInit

/-- C1 witness: the happy-path run is safe and succeeds, its final state
shows AR activity for SHP-002, and the theorem's conclusion (specialised
there, non-vacuously) holds. -/
theorem c1_apBeforeAR_witness :
    c1HappyEvents.all Event.safe = true ∧
    execEvents startState c1HappyEvents = some c1Happy ∧
    hasARActivity c1Happy "SHP-002" = true ∧
    (∀ sh ∈ c1Happy.shipments, hasARActivity c1Happy sh.id = true →
      sh.apStatus = APStatus.audit_pass) :=
  ⟨by decide, by decide, by decide,
    c1_apBeforeAR c1HappyEvents c1Happy (by decide) (by decide)⟩

/-- The same run up to the pending 2000 ms AP-to-AR handoff, then a reset
(which cannot clear the untracked handoff timeout) and two more timer
firings: the handoff fires against the reset shipment list and AR playback
begins for SHP-002 while its apStatus is the seed value received. -/
def c1Events : List Event :=
  List.replicate 6 Event.advance ++ [Event.approve "SHP-002"] ++
    List.replicate 10 Event.advance ++
    [Event.reset, Event.advance, Event.advance]

/-- The state reached by the reset-race run. -/
def c1Final : DashState := (execEvents startState c1Events).getD dashInit

/-- C1 counterexample: after a reset inside the handoff window, SHP-002
has AR activity while its apStatus is received, not a terminal value. -/
theorem c1_counterexample :
    (execEvents startState c1Events).isSome = true ∧
    hasARActivity c1Final "SHP-002" = true ∧
    (c1Final.shipments.find? fun sh => sh.id == "SHP-002").map
      Shipment.apStatus = some APStatus.received ∧
    APStatus.received ≠ APStatus.audit_pass := by
  exact ⟨by decide, by decide, by decide, by decide⟩

end SentieDemo